import Mathlib

/-!
# Verification of the ai-router backend

Shallow embedding of the ai-router request pipeline (Node.js backend) in
Lean 4, together with proofs and refutations of the specification claims.

Conventions used throughout:
* JavaScript numbers are modelled as exact rationals (`ℚ`); timestamps as `ℤ`
  (milliseconds).  `Math.round x` is modelled as `⌊x + 1/2⌋` (this is what
  `Math.round` computes, including for negative inputs).
* JavaScript `Map`s are modelled as association lists with `Map.get`/
  `Map.set`/`Map.delete` counterparts below.
* Mutation is modelled by explicit state passing: a method that mutates the
  receiver returns the updated receiver.
* `Date.now()` is passed in explicitly as a parameter `now`; distinct calls
  of `Date.now()` inside one synchronous method body are identified.
-/

/-- `Math.round` on rationals: round half toward positive infinity. -/
def jsRound (x : ℚ) : ℤ := ⌊x + 1/2⌋

/-- JavaScript `String.prototype.startsWith`, as a character-list prefix
test (kernel-reducible, unlike `String.startsWith`). -/
def jsStartsWith (s p : String) : Bool := p.data.isPrefixOf s.data

/-- `Map.get` on an association list (first binding wins). -/
def jsGet {α : Type} (m : List (String × α)) (k : String) : Option α :=
  (m.find? (fun p => p.1 == k)).map Prod.snd

/-- `Map.set` on an association list: replace the first binding for the key,
append if absent. -/
def jsSet {α : Type} (m : List (String × α)) (k : String) (v : α) :
    List (String × α) :=
  match m with
  | [] => [(k, v)]
  | (k', v') :: rest =>
    if k' == k then (k, v) :: rest else (k', v') :: jsSet rest k v

/-- `Map.delete` on an association list. -/
def jsDelete {α : Type} (m : List (String × α)) (k : String) :
    List (String × α) :=
  m.filter (fun p => ¬ (p.1 == k))

/-- `Math.min(...)` over a list of rationals (the list is always non-empty at
the call sites we model). -/
def listMin : List ℚ → ℚ
  | [] => 0
  | x :: xs => xs.foldl min x

/-- `Math.max(...)` over a list of rationals. -/
def listMax : List ℚ → ℚ
  | [] => 0
  | x :: xs => xs.foldl max x

/-! ## RL engine (src/backend/src/services/rlEngine.js)

The Thompson-sampling bandit keeps, per model, a pair `(alpha, beta)` with
prior `(1, 1)`.  `recordFeedback` applies a dampened update and rescales the
pair proportionally when its sum exceeds `maxWindowSize`.
-/

namespace RLEngine

/-- One `recordFeedback` update of a single model's `(alpha, beta)` pair
(`rlEngine.js` lines 106–122):
`alpha += reward * dampeningFactor`, `beta += (1 - reward) * dampeningFactor`,
then if `alpha + beta > maxWindowSize` both components are multiplied by
`maxWindowSize / (alpha + beta)`. -/
def recordFeedbackPair (maxWindowSize dampeningFactor : ℚ) (p : ℚ × ℚ)
    (reward : ℚ) : ℚ × ℚ :=
  let alpha := p.1 + reward * dampeningFactor
  let beta := p.2 + (1 - reward) * dampeningFactor
  let total := alpha + beta
  if total > maxWindowSize then
    let scale := maxWindowSize / total
    (alpha * scale, beta * scale)
  else
    (alpha, beta)

/-- The prior `(alpha, beta) = (1, 1)` set by `_initWeights`. -/
def initPair : ℚ × ℚ := (1, 1)

/-- A stored feedback row (`routing_feedback` table), as read by
`RLEngine._computeReward`.  `none` models an absent (`undefined`/`null`)
field. -/
structure FeedbackRow where
  success : Option Bool
  quality_score : Option ℚ
  latency_ms : Option ℚ
  cost : Option ℚ

/-- Contribution of the `success` factor to `_computeReward`
(`rlEngine.js` lines 167–170): `success ? 0.4 : 0` when present, else `0`. -/
def successTerm (s : Option Bool) : ℚ := s.elim 0 (fun b => if b then 2/5 else 0)

/-- Contribution of the `quality_score` factor (`rlEngine.js` lines 173–176):
`min(quality_score / 10, 1) * 0.3` when present, else `0`. -/
def qualityTerm (q : Option ℚ) : ℚ := q.elim 0 (fun qv => min (qv / 10) 1 * (3/10))

/-- Contribution of the `latency_ms` factor (`rlEngine.js` lines 179–183):
`max(0, 1 - latency_ms / 30000) * 0.2` when present, else `0`. -/
def latencyTerm (l : Option ℚ) : ℚ :=
  l.elim 0 (fun lv => max 0 (1 - lv / 30000) * (1/5))

/-- Contribution of the `cost` factor (`rlEngine.js` lines 186–190):
`max(0, 1 - cost / 0.01) * 0.1` when present, else `0`. -/
def costTerm (c : Option ℚ) : ℚ :=
  c.elim 0 (fun cv => max 0 (1 - cv / (1/100)) * (1/10))

/-- Each present factor increments the `factors` counter by one. -/
def factorCount {α : Type} (o : Option α) : ℕ := o.elim 0 (fun _ => 1)

/-- `RLEngine._computeReward` (`rlEngine.js` lines 162–193): each of the four
`if`-blocks adds its term to `reward` and bumps `factors` when the field is
present; the function returns `min(reward, 1)` when `factors > 0` and the
neutral `0.5` otherwise. -/
def computeReward (fb : FeedbackRow) : ℚ :=
  let reward := successTerm fb.success + qualityTerm fb.quality_score +
    latencyTerm fb.latency_ms + costTerm fb.cost
  let factors := factorCount fb.success + factorCount fb.quality_score +
    factorCount fb.latency_ms + factorCount fb.cost
  if factors > 0 then min reward 1 else 1/2

/-- Concrete feedback row used by the C8 witness. -/
def fbEx : FeedbackRow :=
  { success := some true, quality_score := some 8,
    latency_ms := some 1000, cost := some (1/1000) }

end RLEngine

/-! ## Tenant manager and auth middleware
(src/backend/src/services/tenantManager.js, src/backend/src/middleware/auth.js)
-/

/-- The tenant fields consulted by the budget check and the auth middleware.
`none` models SQL `NULL`. -/
structure Tenant where
  id : String
  strategy : String
  budget_limit_monthly : Option ℚ
  usage_this_month : Option ℚ
  rate_limit_rpm : ℚ

namespace TenantManager

/-- `TenantManager.isWithinBudget` (`tenantManager.js` lines 126–129).
JavaScript: `if (!tenant || !tenant.budget_limit_monthly) return true;
return (tenant.usage_this_month || 0) < tenant.budget_limit_monthly;`.
The falsy test `!tenant.budget_limit_monthly` is true both for `null`
(`none`) and for `0` (`some 0`); `tenant.usage_this_month || 0` is
`Option.getD · 0`. -/
def isWithinBudget (tenant : Option Tenant) : Bool :=
  match tenant with
  | none => true
  | some t =>
    match t.budget_limit_monthly with
    | none => true
    | some limit =>
      if limit = 0 then true
      else decide (t.usage_this_month.getD 0 < limit)

end TenantManager

/-- Outcome of the auth middleware for one request. -/
inductive AuthOutcome
  | passThrough
  | invalidKey
  | budgetExceeded
  | authenticated (t : Tenant)

/-- `createAuthMiddleware` (`auth.js` lines 12–74), after header extraction:
`apiKey = none` models a missing header and `some ""` an empty one (both
falsy in JavaScript, hence pass-through).  Vendor prefixes `sk-`/`ant-`
pass through, `fra_` keys authenticate against the tenant store and are
budget-checked, unknown prefixes pass through. -/
def authMiddleware (authenticate : String → Option Tenant)
    (apiKey : Option String) : AuthOutcome :=
  match apiKey with
  | none => .passThrough
  | some key =>
    if key = "" then .passThrough
    else if jsStartsWith key "sk-" ∨ jsStartsWith key "ant-" then .passThrough
    else if jsStartsWith key "fra_" then
      match authenticate key with
      | none => .invalidKey
      | some tenant =>
        if ¬ TenantManager.isWithinBudget (some tenant) then .budgetExceeded
        else .authenticated tenant
    else .passThrough

/-- Concrete tenant used by the C10 witness: budget 5, usage 7. -/
def tenantEx : Tenant :=
  { id := "t1", strategy := "cost-first", budget_limit_monthly := some 5,
    usage_this_month := some 7, rate_limit_rpm := 60 }

/-- Concrete tenant store used by the C10 witness. -/
def authStoreEx : String → Option Tenant :=
  fun k => if k = "fra_k" then some tenantEx else none

/-! ## Rate-limit middleware concurrency counter
(src/backend/src/middleware/rateLimit.js)

`createRateLimitMiddleware` (lines 96–111) increments the global
`activeRequests` counter at admission, registers a decrement on both the
`finish` and the `close` events of the response, and then installs an
`emit` wrapper that records the first `finish`/`close` in a `decremented`
flag — but neither decrement callback consults that flag.
-/

namespace RateLimit

/-- Global middleware state: the `activeRequests` counter plus the
per-request `decremented` guard variable. -/
structure MwState where
  activeRequests : ℤ
  decremented : Bool

/-- Admission (`rateLimit.js` line 97): `activeRequests++`, guard flag
initialised `false` (line 102). -/
def admitReq (s : MwState) : MwState :=
  { s with activeRequests := s.activeRequests + 1 }

/-- Delivery of a response event through the wrapped `res.emit`
(`rateLimit.js` lines 98–109): the wrapper (lines 103–109) sets
`decremented` on the first `finish`/`close`, then the original emitter
invokes the registered listeners — the `finish` listener (line 98) and the
`close` listener (line 99) each decrement `activeRequests`
unconditionally. -/
def emitEvent (s : MwState) (event : String) : MwState :=
  let s1 := if (event == "finish" || event == "close") && !s.decremented
    then { s with decremented := true } else s
  let s2 := if event == "finish"
    then { s1 with activeRequests := s1.activeRequests - 1 } else s1
  if event == "close"
    then { s2 with activeRequests := s2.activeRequests - 1 } else s2

end RateLimit


/-! ## Circuit breaker (src/backend/src/services/circuitBreaker.js)

Per-provider three-state machine.  `recordResult` pushes an event and, in
the CLOSED (and OPEN) states, evaluates the sliding-window thresholds;
`_evaluate` prunes events outside the window, requires `minSamples`
events, and opens the circuit on the first breached threshold in the
order error rate, timeout rate, P95 latency.
-/

/-- Breaker state (`circuitBreaker.js` lines 14–18). -/
inductive CBState | CLOSED | OPEN | HALF_OPEN
  deriving DecidableEq

/-- Which threshold fired (`circuitBreaker.js` lines 137–144 build a
human-readable reason string beginning with "error rate", "timeout rate"
or "P95 latency"; we record the branch instead of the formatted text). -/
inductive OpenReason | errorRate | timeoutRate | p95Latency
  deriving DecidableEq

/-- A sliding-window event (`circuitBreaker.js` lines 83–88). -/
structure CBEvent where
  timestamp : ℤ
  success : Bool
  latencyMs : ℚ
  timedOut : Bool
  deriving DecidableEq

/-- Breaker state and configuration (`circuitBreaker.js` constructor,
lines 21–43). -/
structure CircuitBreaker where
  state : CBState
  errorRateThreshold : ℚ
  timeoutRateThreshold : ℚ
  p95LatencyThreshold : ℚ
  minSamples : ℕ
  windowMs : ℤ
  baseCooldownMs : ℚ
  maxCooldownMs : ℚ
  cooldownMs : ℚ
  events : List CBEvent
  consecutiveFailures : ℕ
  openedAt : Option ℤ
  lastOpenReason : Option OpenReason
  deriving DecidableEq

/-- `_pruneOldEvents` (`circuitBreaker.js` lines 157–160): keep events with
`timestamp > now - windowMs`. -/
def pruneEvents (now windowMs : ℤ) (events : List CBEvent) : List CBEvent :=
  events.filter (fun e => decide (now - windowMs < e.timestamp))

/-- `failures / total` over the window (`circuitBreaker.js` lines 126–129). -/
def windowErrorRate (events : List CBEvent) : ℚ :=
  ((events.filter (fun e => !e.success)).length : ℚ) / events.length

/-- `timeouts / total` over the window (`circuitBreaker.js` lines 128–130). -/
def windowTimeoutRate (events : List CBEvent) : ℚ :=
  ((events.filter (fun e => e.timedOut)).length : ℚ) / events.length

/-- P95 latency (`circuitBreaker.js` lines 133–135): sort latencies
ascending, index `min(ceil(total * 0.95) - 1, total - 1)`.  (The IEEE-754
product `total * 0.95` is identified with the exact rational product.) -/
def windowP95 (events : List CBEvent) : ℚ :=
  let latencies := (events.map (fun e => e.latencyMs)).mergeSort
    (fun a b => decide (a ≤ b))
  let total := events.length
  let p95Index : ℤ := ⌈(total : ℚ) * (95/100)⌉ - 1
  latencies.getD (min p95Index ((total : ℤ) - 1)).toNat 0

/-- The threshold test of `_evaluate` (`circuitBreaker.js` lines 124–144):
`none` below `minSamples` or when no threshold is breached, otherwise the
first breached threshold in source order. -/
def evaluateReason (events : List CBEvent) (minSamples : ℕ)
    (ethr tthr pthr : ℚ) : Option OpenReason :=
  if events.length < minSamples then none
  else if windowErrorRate events ≥ ethr then some .errorRate
  else if windowTimeoutRate events ≥ tthr then some .timeoutRate
  else if windowP95 events ≥ pthr then some .p95Latency
  else none

/-- `_evaluate` (`circuitBreaker.js` lines 121–152): prune, evaluate, and
open the circuit (recording `openedAt` and `lastOpenReason`) when a
threshold is breached. -/
def evaluate (now : ℤ) (b : CircuitBreaker) : CircuitBreaker :=
  let pruned := pruneEvents now b.windowMs b.events
  match evaluateReason pruned b.minSamples b.errorRateThreshold
      b.timeoutRateThreshold b.p95LatencyThreshold with
  | some r => { b with events := pruned, state := .OPEN,
                       openedAt := some now, lastOpenReason := some r }
  | none => { b with events := pruned }

/-- `recordResult` (`circuitBreaker.js` lines 82–116): push the event; in
HALF_OPEN close on success (resetting the cooldown) or reopen with doubled
cooldown on failure; otherwise update `consecutiveFailures` and run
`_evaluate`. -/
def recordResult (now : ℤ) (b : CircuitBreaker) (success : Bool)
    (latencyMs : ℚ) (timedOut : Bool) : CircuitBreaker :=
  let b1 : CircuitBreaker :=
    { b with events := b.events ++ [⟨now, success, latencyMs, timedOut⟩] }
  match b1.state with
  | .HALF_OPEN =>
    if success then
      { b1 with state := .CLOSED, consecutiveFailures := 0,
                cooldownMs := b1.baseCooldownMs }
    else
      { b1 with state := .OPEN, openedAt := some now,
                cooldownMs := min (b1.cooldownMs * 2) b1.maxCooldownMs }
  | _ =>
    let b2 := if success then { b1 with consecutiveFailures := 0 }
              else { b1 with consecutiveFailures := b1.consecutiveFailures + 1 }
    evaluate now b2

/-- Concrete CLOSED breaker (all defaults) holding four recent failures;
used by the C2 witness. -/
def breakerEx : CircuitBreaker :=
  { state := .CLOSED, errorRateThreshold := 1/2, timeoutRateThreshold := 3/10,
    p95LatencyThreshold := 30000, minSamples := 5, windowMs := 60000,
    baseCooldownMs := 10000, maxCooldownMs := 120000, cooldownMs := 10000,
    events := [⟨1000, false, 100, false⟩, ⟨1001, false, 100, false⟩,
               ⟨1002, false, 100, false⟩, ⟨1003, false, 100, false⟩],
    consecutiveFailures := 4, openedAt := none, lastOpenReason := none }


/-! ## Semantic cache (src/backend/src/services/cache.js)

Gated LRU cache: exact hash map, embedding entry list, LRU order list.
Floats in embeddings are modelled as `ℝ` (the cosine similarity uses
`Math.sqrt`); every other number is exact.
-/

/-- An exact-match entry (`cache.js` lines 139–144). -/
structure CacheEntry where
  response : String
  model : String
  timestamp : ℤ
  hitCount : ℕ
  deriving DecidableEq

/-- An embedding entry (`cache.js` lines 150–157). -/
structure EmbEntry where
  hash : String
  embedding : List ℝ
  response : String
  model : String
  timestamp : ℤ
  hitCount : ℕ

/-- Cache metrics (`cache.js` lines 29–36). -/
structure CacheStats where
  totalLookups : ℕ
  exactHits : ℕ
  semanticHits : ℕ
  misses : ℕ
  embeddingsComputed : ℕ
  embeddingsSkipped : ℕ
  deriving DecidableEq

/-- The `SemanticCache` state (`cache.js` constructor, lines 16–37). -/
structure SemanticCache where
  maxSize : ℕ
  ttlMs : ℤ
  similarityThreshold : ℚ
  minEntriesForEmbedding : ℕ
  minHitRateForEmbedding : ℚ
  exactMatchMap : List (String × CacheEntry)
  embeddingEntries : List EmbEntry
  accessOrder : List String
  stats : CacheStats

/-- `lookup`'s return value (`cache.js` line 83). -/
structure LookupResult where
  hit : Bool
  response : Option String
  model : Option String
  source : Option String
  deriving DecidableEq

namespace SemanticCache

/-- `_cosineSimilarity` (`cache.js` lines 69–79): zero for mismatched
lengths or a zero denominator, otherwise `dot / (‖a‖ * ‖b‖)`. -/
noncomputable def cosineSimilarity (a b : List ℝ) : ℝ :=
  if a.length ≠ b.length then 0
  else
    let dotProduct := (List.zip a b).foldl (fun acc p => acc + p.1 * p.2) 0
    let normA := a.foldl (fun acc x => acc + x * x) 0
    let normB := b.foldl (fun acc x => acc + x * x) 0
    let denom := Real.sqrt normA * Real.sqrt normB
    if denom = 0 then 0 else dotProduct / denom

/-- `_shouldUseEmbedding` (`cache.js` lines 49–64); returns the decision and
the possibly-updated stats (`embeddingsSkipped` is bumped when the hit rate
disables the embedding path). -/
def shouldUseEmbedding (c : SemanticCache) : Bool × CacheStats :=
  if c.exactMatchMap.length < c.minEntriesForEmbedding then (false, c.stats)
  else
    let totalHits := c.stats.exactHits + c.stats.semanticHits
    let hitRate : ℚ := if c.stats.totalLookups > 50
      then (totalHits : ℚ) / c.stats.totalLookups else 1
    if hitRate < c.minHitRateForEmbedding then
      (false, { c.stats with embeddingsSkipped := c.stats.embeddingsSkipped + 1 })
    else (true, c.stats)

/-- `_evictExpired` (`cache.js` lines 174–183): drop exact entries with
`now - timestamp > ttl` (and their LRU slots), keep embedding entries with
`now - timestamp ≤ ttl`. -/
def evictExpired (now : ℤ) (c : SemanticCache) : SemanticCache :=
  let expired := c.exactMatchMap.filter
    (fun p => decide (now - p.2.timestamp > c.ttlMs))
  { c with
    exactMatchMap := c.exactMatchMap.filter
      (fun p => decide (now - p.2.timestamp ≤ c.ttlMs)),
    accessOrder := c.accessOrder.filter
      (fun h => ¬ (expired.any (fun p => p.1 == h))),
    embeddingEntries := c.embeddingEntries.filter
      (fun e => decide (now - e.timestamp ≤ c.ttlMs)) }

/-- `_touchLRU` (`cache.js` lines 165–169): remove the hash (it occurs at
most once) and push it to the back. -/
def touchLRU (order : List String) (hash : String) : List String :=
  (order.filter (fun h => ¬ (h == hash))) ++ [hash]

/-- The linear scan of `lookup`'s step 2 (`cache.js` lines 101–111): skip
entries with `now - timestamp > ttl`, track the best similarity and the
position of the best entry (positions model JavaScript object identity). -/
noncomputable def bestSemantic (now ttl : ℤ) (emb : List ℝ)
    (entries : List EmbEntry) : ℝ × Option ℕ :=
  let r := entries.foldl
    (fun acc entry =>
      if now - entry.timestamp > ttl then (acc.1, acc.2.1, acc.2.2 + 1)
      else
        let sim := cosineSimilarity emb entry.embedding
        if sim > acc.1 then (sim, some acc.2.2, acc.2.2 + 1)
        else (acc.1, acc.2.1, acc.2.2 + 1))
    ((0 : ℝ), (none : Option ℕ), (0 : ℕ))
  (r.1, r.2.1)

/-- A cache miss (`cache.js` lines 122–123). -/
def missResult (c : SemanticCache) : LookupResult × SemanticCache :=
  ({ hit := false, response := none, model := none, source := none },
   { c with stats := { c.stats with misses := c.stats.misses + 1 } })

/-- Step 2 of `lookup` (`cache.js` lines 100–123): the gated semantic
search followed by the miss path.  The inner `none` branch of the index
lookup is unreachable (the scan only records positions it visited). -/
noncomputable def lookupSemantic (now : ℤ) (c : SemanticCache)
    (embedding : Option (List ℝ)) : LookupResult × SemanticCache :=
  match embedding with
  | none => missResult c
  | some emb =>
    let u := shouldUseEmbedding c
    let c := { c with stats := u.2 }
    if u.1 then
      match bestSemantic now c.ttlMs emb c.embeddingEntries with
      | (bestSim, some i) =>
        match c.embeddingEntries.get? i with
        | some entry =>
          if bestSim ≥ (c.similarityThreshold : ℝ) then
            ({ hit := true, response := some entry.response,
               model := some entry.model, source := some "semantic" },
             { c with
                embeddingEntries := c.embeddingEntries.set i
                  { entry with hitCount := entry.hitCount + 1 },
                accessOrder := touchLRU c.accessOrder entry.hash,
                stats := { c.stats with
                  semanticHits := c.stats.semanticHits + 1 } })
          else missResult c
        | none => missResult c
      | (_, none) => missResult c
    else missResult c

/-- `lookup` (`cache.js` lines 85–124): bump `totalLookups`, evict expired
entries, return the exact match when fresh (`now - timestamp < ttl`),
otherwise fall through to the semantic step. -/
noncomputable def lookup (now : ℤ) (c : SemanticCache) (promptHash : String)
    (embedding : Option (List ℝ)) : LookupResult × SemanticCache :=
  let c1 := { c with stats :=
    { c.stats with totalLookups := c.stats.totalLookups + 1 } }
  let c2 := evictExpired now c1
  match jsGet c2.exactMatchMap promptHash with
  | some exact =>
    if now - exact.timestamp < c2.ttlMs then
      ({ hit := true, response := some exact.response,
         model := some exact.model, source := some "exact" },
       { c2 with
          exactMatchMap := jsSet c2.exactMatchMap promptHash
            { exact with hitCount := exact.hitCount + 1 },
          accessOrder := touchLRU c2.accessOrder promptHash,
          stats := { c2.stats with exactHits := c2.stats.exactHits + 1 } })
    else lookupSemantic now c2 embedding
  | none => lookupSemantic now c2 embedding

/-- The LRU eviction loop of `store` (`cache.js` lines 131–137), with the
initial `accessOrder` length as fuel: each iteration shifts one hash and
deletes its entries.  (When `accessOrder` runs dry while the map is still
full the JavaScript loop never terminates; the model stops instead — the
state is unreachable because `accessOrder` tracks every stored hash.) -/
def evictLRUGo : ℕ → SemanticCache → SemanticCache
  | 0, c => c
  | n + 1, c =>
    if c.exactMatchMap.length ≥ c.maxSize then
      match c.accessOrder with
      | [] => c
      | oldest :: rest =>
        evictLRUGo n
          { c with accessOrder := rest,
                   exactMatchMap := jsDelete c.exactMatchMap oldest,
                   embeddingEntries := c.embeddingEntries.filter
                     (fun e => ¬ (e.hash == oldest)) }
    else c

/-- The `while` loop at the top of `store` (`cache.js` lines 131–137). -/
def evictLRU (c : SemanticCache) : SemanticCache :=
  evictLRUGo c.accessOrder.length c

/-- `store` (`cache.js` lines 129–160): evict LRU entries while at
capacity, insert the exact entry, touch the LRU order, and append an
embedding entry when an embedding is supplied. -/
def store (now : ℤ) (c : SemanticCache) (promptHash response model : String)
    (embedding : Option (List ℝ)) : SemanticCache :=
  let c1 := evictLRU c
  let entry : CacheEntry :=
    { response := response, model := model, timestamp := now, hitCount := 0 }
  let c2 := { c1 with
    exactMatchMap := jsSet c1.exactMatchMap promptHash entry,
    accessOrder := touchLRU c1.accessOrder promptHash }
  match embedding with
  | some emb =>
    { c2 with
      embeddingEntries := c2.embeddingEntries ++
        [{ hash := promptHash, embedding := emb, response := response,
           model := model, timestamp := now, hitCount := 0 }],
      stats := { c2.stats with
        embeddingsComputed := c2.stats.embeddingsComputed + 1 } }
  | none => c2

end SemanticCache

/-- Empty cache with the default configuration; used by the C9 witness. -/
def cacheEmptyEx : SemanticCache :=
  { maxSize := 10000, ttlMs := 3600000, similarityThreshold := 23/25,
    minEntriesForEmbedding := 100, minHitRateForEmbedding := 3/20,
    exactMatchMap := [], embeddingEntries := [], accessOrder := [],
    stats := ⟨0, 0, 0, 0, 0, 0⟩ }

/-- Default-configured cache holding one fresh exact entry; used by the C3
witness. -/
def cacheW : SemanticCache :=
  { maxSize := 10000, ttlMs := 3600000, similarityThreshold := 23/25,
    minEntriesForEmbedding := 100, minHitRateForEmbedding := 3/20,
    exactMatchMap := [("h1", ⟨"r", "m", 0, 0⟩)],
    embeddingEntries := [], accessOrder := ["h1"],
    stats := ⟨0, 0, 0, 0, 0, 0⟩ }

/-- Embedding entry stored at time 0; used by the C3 counterexample. -/
def embEx : EmbEntry :=
  { hash := "h1", embedding := [1], response := "r", model := "m",
    timestamp := 0, hitCount := 0 }

/-- Cache with `minEntriesForEmbedding := 1` (a constructor option the
source accepts) holding one exact and one embedding entry, both stored at
time 0; used by the C3 counterexample. -/
def cacheC3 : SemanticCache :=
  { maxSize := 10000, ttlMs := 3600000, similarityThreshold := 23/25,
    minEntriesForEmbedding := 1, minHitRateForEmbedding := 3/20,
    exactMatchMap := [("h1", ⟨"r", "m", 0, 0⟩)],
    embeddingEntries := [embEx],
    accessOrder := ["h1"], stats := ⟨0, 0, 0, 0, 0, 0⟩ }


/-! ## Classifier (src/unnamed/part_003, the classifier service)

`extractFeatures` computes 15 features normalized to `[0,1]`;
`heuristicClassify` is the fallback complexity classifier.  The raw string
and regex primitives of `extractFeatures` (splits, match counts, lexicon
hits) are taken as inputs in a `Measurements` record; the arithmetic that
follows them is embedded exactly.
-/


/-- The 15-feature vector returned by `extractFeatures` (classifier lines 135–151). -/
structure Features where
  charCount : ℚ
  wordCount : ℚ
  sentenceCount : ℚ
  avgWordLength : ℚ
  avgSentenceLength : ℚ
  typeTokenRatio : ℚ
  codeIndicator : ℚ
  questionDepth : ℚ
  structuralComplexity : ℚ
  techDensity : ℚ
  reasoningDensity : ℚ
  specificity : ℚ
  hasPriorReference : ℚ
  numericalDensity : ℚ
  hasLargeNumbers : ℚ

/-- Outputs of the string/regex primitives used by `extractFeatures`
(classifier lines 69–133): the split word list, raw counts and boolean
regex tests.  `backtickFenceCount` is the number of ``` occurrences (the
source divides it by 2 to count fenced blocks). -/
structure Measurements where
  words : List String
  charCount : ℕ
  sentenceCount : ℕ
  backtickFenceCount : ℕ
  hasInlineCode : Bool
  questionMarks : ℕ
  bulletPoints : ℕ
  numberedPoints : ℕ
  techTermCount : ℕ
  reasoningCount : ℕ
  hasConstraints : Bool
  hasFormat : Bool
  hasPriorReference : Bool
  numberCount : ℕ
  hasLargeNumbers : Bool

/-- The arithmetic of `extractFeatures` (classifier lines 69–152): each
feature is normalized by its cap via `Math.min`, the type-token ratio is
`|unique lowercased words| / |words|`, the code indicator is 1 for a fenced
block, 0.5 for inline backticks, 0 otherwise. -/
def extractFeatures (m : Measurements) : Features :=
  let wordCount := m.words.length
  let avgWordLength : ℚ := if wordCount > 0
    then ((m.words.map String.length).sum : ℚ) / wordCount else 0
  let avgSentenceLength : ℚ := if m.sentenceCount > 0
    then (wordCount : ℚ) / m.sentenceCount else 0
  let uniqueWords := (m.words.map (fun w => w.toLower)).dedup
  let typeTokenRatio : ℚ := if wordCount > 0
    then (uniqueWords.length : ℚ) / wordCount else 0
  let codeBlockCount : ℚ := (m.backtickFenceCount : ℚ) / 2
  let codeIndicator : ℚ := if codeBlockCount > 0 then 1
    else if m.hasInlineCode then 1/2 else 0
  { charCount := min ((m.charCount : ℚ) / 5000) 1,
    wordCount := min ((wordCount : ℚ) / 1000) 1,
    sentenceCount := min ((m.sentenceCount : ℚ) / 50) 1,
    avgWordLength := min (avgWordLength / 12) 1,
    avgSentenceLength := min (avgSentenceLength / 40) 1,
    typeTokenRatio := typeTokenRatio,
    codeIndicator := codeIndicator,
    questionDepth := min ((m.questionMarks : ℚ) / 3) 1,
    structuralComplexity := min (((m.bulletPoints + m.numberedPoints : ℕ) : ℚ) / 5) 1,
    techDensity := min ((m.techTermCount : ℚ) / 5) 1,
    reasoningDensity := min ((m.reasoningCount : ℚ) / 3) 1,
    specificity := (if m.hasConstraints then (1:ℚ)/2 else 0) +
      (if m.hasFormat then (1:ℚ)/2 else 0),
    hasPriorReference := if m.hasPriorReference then 1 else 0,
    numericalDensity := min ((m.numberCount : ℚ) / 10) 1,
    hasLargeNumbers := if m.hasLargeNumbers then 1 else 0 }

/-- The fixed-weight sum of `heuristicClassify` (classifier lines 200–221):
weights 0.10, 0.08, 0.05, 0.05, 0.05, 0.03, 0.15, 0.08, 0.06, 0.12, 0.10,
0.05, 0.02, 0.03, 0.03. -/
def weightedScore (f : Features) : ℚ :=
  f.charCount * (1/10) + f.wordCount * (2/25) + f.sentenceCount * (1/20) +
  f.avgWordLength * (1/20) + f.avgSentenceLength * (1/20) +
  f.typeTokenRatio * (3/100) + f.codeIndicator * (3/20) +
  f.questionDepth * (2/25) + f.structuralComplexity * (3/50) +
  f.techDensity * (3/25) + f.reasoningDensity * (1/10) +
  f.specificity * (1/20) + f.hasPriorReference * (1/50) +
  f.numericalDensity * (3/100) + f.hasLargeNumbers * (3/100)

/-- `TIERS` (classifier line 18). -/
def TIERS : List String := ["trivial", "simple", "moderate", "complex", "expert"]

/-- The `{tier, score, confidence}` triple returned by `heuristicClassify`. -/
structure HeuristicResult where
  tier : String
  score : ℤ
  confidence : ℚ

/-- `heuristicClassify` (classifier lines 198–239): scale the weighted sum
to 0–100 (`Math.min(Math.round(raw * 100), 100)`), map to a tier by the
thresholds 10/25/50/75, fixed confidence 0.65. -/
def heuristicClassify (f : Features) : HeuristicResult :=
  let rawScore := weightedScore f
  let score : ℤ := min (jsRound (rawScore * 100)) 100
  let tierIndex : ℕ :=
    if score ≤ 10 then 0
    else if score ≤ 25 then 1
    else if score ≤ 50 then 2
    else if score ≤ 75 then 3
    else 4
  { tier := TIERS.getD tierIndex "", score := score, confidence := 13/20 }

/-- The heuristic path of `classify` (classifier lines 330–353): feature
extraction followed by `heuristicClassify`. -/
def classifyHeuristic (m : Measurements) : HeuristicResult :=
  heuristicClassify (extractFeatures m)

/-- Each of the 15 features lies in `[0,1]`. -/
def featuresInRange (f : Features) : Prop :=
  (0 ≤ f.charCount ∧ f.charCount ≤ 1) ∧
  (0 ≤ f.wordCount ∧ f.wordCount ≤ 1) ∧
  (0 ≤ f.sentenceCount ∧ f.sentenceCount ≤ 1) ∧
  (0 ≤ f.avgWordLength ∧ f.avgWordLength ≤ 1) ∧
  (0 ≤ f.avgSentenceLength ∧ f.avgSentenceLength ≤ 1) ∧
  (0 ≤ f.typeTokenRatio ∧ f.typeTokenRatio ≤ 1) ∧
  (0 ≤ f.codeIndicator ∧ f.codeIndicator ≤ 1) ∧
  (0 ≤ f.questionDepth ∧ f.questionDepth ≤ 1) ∧
  (0 ≤ f.structuralComplexity ∧ f.structuralComplexity ≤ 1) ∧
  (0 ≤ f.techDensity ∧ f.techDensity ≤ 1) ∧
  (0 ≤ f.reasoningDensity ∧ f.reasoningDensity ≤ 1) ∧
  (0 ≤ f.specificity ∧ f.specificity ≤ 1) ∧
  (0 ≤ f.hasPriorReference ∧ f.hasPriorReference ≤ 1) ∧
  (0 ≤ f.numericalDensity ∧ f.numericalDensity ≤ 1) ∧
  (0 ≤ f.hasLargeNumbers ∧ f.hasLargeNumbers ≤ 1)


/-! ## Streaming orchestrator (src/backend/src/server.js, handleStreamingRequest)

Event-driven model of `handleStreamingRequest` after the provider stream
is live (`server.js` lines 384–449).  The handlers of the source are the
transition function; `validFrom` encodes the Node.js stream contract that
a destroyed stream delivers no further `data`/`end`/`error` events.
-/

/-- Events observable by the streaming handlers: the client `close` event
and the provider stream `data`/`end`/`error` events. -/
inductive StreamEvent
  | clientClose
  | dataChunk (chunk : String)
  | streamEnd
  | streamError
  deriving DecidableEq

/-- Observable handler state: the `aborted` flag, whether
`providerStream.destroy()` was called, what was written to the client,
whether `res.end()` ran, and how many log rows / breaker results were
recorded for this request. -/
structure StreamState where
  aborted : Bool
  destroyed : Bool
  clientWrites : List String
  clientEnded : Bool
  logRows : ℕ
  breakerSuccesses : ℕ
  breakerFailures : ℕ
  deriving DecidableEq

/-- State right after the SSE headers are flushed (`server.js` line 384). -/
def initStreamState : StreamState :=
  { aborted := false, destroyed := false, clientWrites := [],
    clientEnded := false, logRows := 0, breakerSuccesses := 0,
    breakerFailures := 0 }

/-- One event delivery (`server.js`): `req.on('close')` (lines 388–394)
sets `aborted` and destroys the provider stream; `data` (406–410) writes
to the client only when not aborted; `end` (412–440) ends the response
when not aborted and records breaker success and the log row; `error`
(442–449) writes an error chunk when not aborted and records breaker
failure (no log row). -/
def streamStep (s : StreamState) (e : StreamEvent) : StreamState :=
  match e with
  | .clientClose => { s with aborted := true, destroyed := true }
  | .dataChunk c =>
    if s.aborted then s else { s with clientWrites := s.clientWrites ++ [c] }
  | .streamEnd =>
    { s with clientEnded := s.clientEnded || !s.aborted,
             breakerSuccesses := s.breakerSuccesses + 1,
             logRows := s.logRows + 1 }
  | .streamError =>
    { s with clientWrites := if s.aborted then s.clientWrites
               else s.clientWrites ++ ["error"],
             clientEnded := s.clientEnded || !s.aborted,
             breakerFailures := s.breakerFailures + 1 }

/-- Run a sequence of events through the handlers. -/
def runStream (s : StreamState) (events : List StreamEvent) : StreamState :=
  events.foldl streamStep s

/-- Trace validity: once the provider stream is destroyed it emits no
further `data`/`end`/`error` events (Node.js `stream.destroy()` contract);
only the idempotent client `close` may still occur. -/
def validFrom : StreamState → List StreamEvent → Bool
  | _, [] => true
  | s, e :: rest =>
    (!s.destroyed || (e == .clientClose)) && validFrom (streamStep s e) rest


/-! ## Router (src/backend/src/services/router.js)

Multi-factor weighted router.  The model catalog `models.json` consumed by
`routeRequest` is not among the provided sources, so `routeRequest` is
embedded parametrically over the catalog list; `ModelEntry` follows the
catalog attribute shape of the spec's data model.  The stable descending
sort models the stable `Array.prototype.sort` of the source (stable sorts
agree on every total preorder comparator).
-/

/-- Modelled from the spec: a `models.json` catalog entry (the catalog data
file is absent from the sources; spec §3 "Model catalog entry" gives its
attributes, matching the fields `routeRequest` reads). -/
structure ModelEntry where
  id : String
  provider : String
  input_cost_per_1m : ℚ
  output_cost_per_1m : ℚ
  avg_latency_ms : ℚ
  reliability : ℚ
  energy_intensity : ℚ
  quality_score : ℚ
  strengths : List String
  deriving DecidableEq

/-- The classification fields the router reads. -/
structure Classification where
  tier : String
  confidence : ℚ
  intent : String
  deriving DecidableEq

/-- A per-model benchmark snapshot as produced by
`Benchmarker.getMetrics` (`benchmarker.js` lines 55–86); for a tracked
model the latency window is non-empty, so `avgLatencyMs` is present. -/
structure BenchMetric where
  avgLatencyMs : ℚ
  errorRate : ℚ
  sampleCount : ℕ
  deriving DecidableEq

/-- A strategy weight profile (`router.js` lines 24–57). -/
structure RouterWeights where
  cost : ℚ
  quality : ℚ
  latency : ℚ
  energy : ℚ
  reliability : ℚ
  rl : ℚ
  deriving DecidableEq

/-- `STRATEGY_WEIGHTS[strategy] || STRATEGY_WEIGHTS['balanced']`
(`router.js` lines 24–57 and 140). -/
def STRATEGY_WEIGHTS (strategy : String) : RouterWeights :=
  if strategy = "cost-first" then ⟨7/20, 1/5, 1/10, 1/10, 1/10, 3/20⟩
  else if strategy = "green-first" then ⟨1/10, 3/20, 1/10, 7/20, 1/10, 1/5⟩
  else if strategy = "performance-first" then ⟨1/20, 7/20, 1/5, 1/20, 1/5, 3/20⟩
  else ⟨1/5, 1/5, 3/20, 3/20, 3/20, 3/20⟩

/-- `MIN_BENCHMARK_SAMPLES` (`router.js` line 64). -/
def MIN_BENCHMARK_SAMPLES : ℕ := 20

/-- `normalizeMinMax` (`router.js` lines 66–69). -/
def normalizeMinMax (value lo hi : ℚ) : ℚ :=
  if hi = lo then 1/2 else max 0 (min 1 ((value - lo) / (hi - lo)))

/-- `invertNormalize` (`router.js` lines 71–74). -/
def invertNormalize (value lo hi : ℚ) : ℚ := 1 - normalizeMinMax value lo hi

/-- `blendWithBaseline` (`router.js` lines 82–85). -/
def blendWithBaseline (observed baseline : ℚ) (sampleCount : ℕ) : ℚ :=
  let coeff := min ((sampleCount : ℚ) / MIN_BENCHMARK_SAMPLES) 1
  coeff * observed + (1 - coeff) * baseline

/-- The `intentStrengthMap` lookup with `|| []` default
(`router.js` lines 94–104). -/
def intentStrengthMap (intent : String) : List String :=
  if intent = "code" then ["code", "reasoning"]
  else if intent = "math" then ["math", "reasoning"]
  else if intent = "analysis" then ["analysis", "reasoning"]
  else if intent = "creative" then ["creative"]
  else if intent = "translation" then ["translation"]
  else if intent = "qa" then ["qa", "summarization"]
  else []

/-- `qualityMatchScore` (`router.js` lines 90–115); the falsy guard
`!intent` corresponds to the empty string (strengths lists are always
present in the catalog). -/
def qualityMatchScore (intent : String) (modelStrengths : List String)
    (baseQuality : ℚ) : ℚ :=
  if intent = "" then baseQuality / 100
  else
    let relevantStrengths := intentStrengthMap intent
    let matchCount :=
      (relevantStrengths.filter (fun s => modelStrengths.contains s)).length
    let strengthBonus : ℚ := if relevantStrengths.length > 0
      then ((matchCount : ℚ) / relevantStrengths.length) * (1/5) else 0
    min 1 (baseQuality / 100 + strengthBonus)

/-- `TIER_MIN_QUALITY[tier] || 0` (`router.js` lines 120–126 and 164). -/
def TIER_MIN_QUALITY (tier : String) : ℚ :=
  if tier = "moderate" then 60
  else if tier = "complex" then 80
  else if tier = "expert" then 90
  else 0

/-- The `options` argument of `routeRequest` (`router.js` lines 131–138);
breaker states are keyed maps to the `state` field the filter reads. -/
structure RouteOptions where
  rlScores : List (String × ℚ)
  benchmarkMetrics : List (String × BenchMetric)
  breakerStates : List (String × CBState)
  tenantAllowedModels : Option (List String)
  confidenceThreshold : ℚ
  deriving DecidableEq

/-- `breakerStates[m.id] || breakerStates[m.provider]`
(`router.js` line 155). -/
def breakerStatus (bs : List (String × CBState)) (m : ModelEntry) :
    Option CBState :=
  match jsGet bs m.id with
  | some st => some st
  | none => jsGet bs m.provider

/-- The tenant allowlist filter (`router.js` lines 149–151); `none` models
the falsy `null` (an empty list is truthy and filters everything out). -/
def filterAllowed (models : List ModelEntry) (allowed : Option (List String)) :
    List ModelEntry :=
  match allowed with
  | some l => models.filter (fun m => l.contains m.id)
  | none => models

/-- The circuit-breaker filter (`router.js` lines 154–161): drop models
whose looked-up breaker state is OPEN. -/
def filterBreakers (models : List ModelEntry)
    (bs : List (String × CBState)) : List ModelEntry :=
  models.filter (fun m =>
    if breakerStatus bs m = some CBState.OPEN then false else true)

/-- The minimum-quality filter (`router.js` lines 165 and 177). -/
def filterQuality (models : List ModelEntry) (minQ : ℚ) : List ModelEntry :=
  models.filter (fun m => decide (m.quality_score ≥ minQ))

/-- The candidate pipeline of `routeRequest` before the ultimate fallback
(`router.js` lines 142–183): allowlist, breaker filter, tier quality
filter (kept only when non-empty), and the low-confidence `+15` quality
bias (kept only when non-empty). -/
def routerCandidates (models : List ModelEntry) (cls : Classification)
    (options : RouteOptions) : List ModelEntry :=
  let candidates1 := filterAllowed models options.tenantAllowedModels
  let candidates2 := filterBreakers candidates1 options.breakerStates
  let minQuality := TIER_MIN_QUALITY cls.tier
  let qualityCandidates := filterQuality candidates2 minQuality
  let candidates3 := if qualityCandidates.length > 0
    then qualityCandidates else candidates2
  if cls.confidence < options.confidenceThreshold then
    let adjustedMinQuality := min (minQuality + 15) 95
    let safeCandidates := filterQuality candidates3 adjustedMinQuality
    if safeCandidates.length > 0 then safeCandidates else candidates3
  else candidates3

/-- A scored candidate (`router.js` lines 245–259); the breakdown fields
carry the 3-decimal rounded scores. -/
structure ScoredCandidate where
  id : String
  provider : String
  totalScore : ℚ
  costScore : ℚ
  qualityScore : ℚ
  latencyScore : ℚ
  energyScore : ℚ
  reliabilityScore : ℚ
  rlScore : ℚ
  modelData : ModelEntry
  deriving DecidableEq

/-- `Math.round(x * 1000) / 1000` (`router.js` line 248). -/
def round3 (x : ℚ) : ℚ := (jsRound (x * 1000) : ℚ) / 1000

/-- Scoring of one candidate (`router.js` lines 210–260): benchmark
blending, min-max normalizations, quality match, the `rlScores[m.id] ||
0.5` default (`0` is falsy), and the weighted sum. -/
def scoreCandidate (weights : RouterWeights) (cls : Classification)
    (options : RouteOptions) (costMin costMax latMin latMax eMin eMax : ℚ)
    (m : ModelEntry) : ScoredCandidate :=
  let avgCost := (m.input_cost_per_1m + m.output_cost_per_1m) / 2
  let bmOpt := jsGet options.benchmarkMetrics m.id
  let sampleCount := match bmOpt with
    | some bm => bm.sampleCount
    | none => 0
  let realLatency := match bmOpt with
    | some bm => blendWithBaseline bm.avgLatencyMs m.avg_latency_ms sampleCount
    | none => m.avg_latency_ms
  let realReliability := match bmOpt with
    | some bm => blendWithBaseline (1 - bm.errorRate) m.reliability sampleCount
    | none => m.reliability
  let costScore := invertNormalize avgCost costMin costMax
  let qualityScore := qualityMatchScore cls.intent m.strengths m.quality_score
  let latencyScore := invertNormalize realLatency latMin latMax
  let energyScore := invertNormalize m.energy_intensity eMin eMax
  let reliabilityScore := realReliability
  let rlScore := match jsGet options.rlScores m.id with
    | some s => if s = 0 then 1/2 else s
    | none => 1/2
  let totalScore := weights.cost * costScore + weights.quality * qualityScore +
    weights.latency * latencyScore + weights.energy * energyScore +
    weights.reliability * reliabilityScore + weights.rl * rlScore
  { id := m.id, provider := m.provider,
    totalScore := round3 totalScore,
    costScore := round3 costScore, qualityScore := round3 qualityScore,
    latencyScore := round3 latencyScore, energyScore := round3 energyScore,
    reliabilityScore := round3 reliabilityScore, rlScore := round3 rlScore,
    modelData := m }

/-- The routing result (`router.js` lines 276–285); `fallbackUsed`
records whether the ultimate-fallback warning of line 188 was logged.
`routeRequest` crashes on an empty catalog (`best` is `undefined`), which
the embedding models as `none`. -/
structure RoutingResult where
  selectedModel : ModelEntry
  selectedModelId : String
  score : ℚ
  allCandidates : List ScoredCandidate
  fallbackUsed : Bool
  deriving DecidableEq

/-- The normalization ranges plus the scoring map
(`router.js` lines 194–260). -/
def scoredList (weights : RouterWeights) (cls : Classification)
    (options : RouteOptions) (candidates : List ModelEntry) :
    List ScoredCandidate :=
  let costValues := candidates.map
    (fun m => (m.input_cost_per_1m + m.output_cost_per_1m) / 2)
  let latencyValues := candidates.map (fun m =>
    match jsGet options.benchmarkMetrics m.id with
    | some bm => bm.avgLatencyMs
    | none => m.avg_latency_ms)
  let energyValues := candidates.map (fun m => m.energy_intensity)
  candidates.map (scoreCandidate weights cls options
    (listMin costValues) (listMax costValues)
    (listMin latencyValues) (listMax latencyValues)
    (listMin energyValues) (listMax energyValues))

/-- Stable insertion into a descending-sorted list: the new element goes
after all elements with an equal or higher score. -/
def insertDesc (x : ScoredCandidate) : List ScoredCandidate → List ScoredCandidate
  | [] => [x]
  | y :: ys => if y.totalScore ≥ x.totalScore then y :: insertDesc x ys
               else x :: y :: ys

/-- The stable descending sort of `router.js` line 263
(`sort((a, b) => b.totalScore - a.totalScore)`; JavaScript `Array.sort`
is stable, and a stable sort is uniquely determined by the comparator). -/
def sortDesc (l : List ScoredCandidate) : List ScoredCandidate :=
  l.foldl (fun acc x => insertDesc x acc) []

/-- `routeRequest` (`router.js` lines 131–286): filter pipeline, ultimate
fallback reinstating the whole catalog when the pipeline empties, scoring,
stable descending sort, and selection of the head. -/
def routeRequest (models : List ModelEntry) (cls : Classification)
    (strategy : String) (options : RouteOptions) : Option RoutingResult :=
  let weights := STRATEGY_WEIGHTS strategy
  let candidates4 := routerCandidates models cls options
  let fallbackUsed := candidates4.isEmpty
  let candidates := if candidates4.isEmpty then models else candidates4
  let scored := scoredList weights cls options candidates
  let sorted := sortDesc scored
  match sorted with
  | [] => none
  | best :: _ =>
    some { selectedModel := best.modelData, selectedModelId := best.id,
           score := best.totalScore, allCandidates := sorted,
           fallbackUsed := fallbackUsed }

/-- Modelled from the spec: concrete catalog entry used by the C1
theorems (provider `alpha`, strong on every axis). -/
def modelAlpha : ModelEntry :=
  { id := "m-alpha", provider := "alpha", input_cost_per_1m := 1,
    output_cost_per_1m := 1, avg_latency_ms := 100, reliability := 99/100,
    energy_intensity := 1, quality_score := 90, strengths := [] }

/-- Modelled from the spec: concrete catalog entry used by the C1
theorems (provider `beta`, weak on every axis). -/
def modelBeta : ModelEntry :=
  { id := "m-beta", provider := "beta", input_cost_per_1m := 10,
    output_cost_per_1m := 10, avg_latency_ms := 1000, reliability := 1/2,
    energy_intensity := 5, quality_score := 10, strengths := [] }

/-- Modelled from the spec: two-provider catalog for the C1 theorems. -/
def modelsEx : List ModelEntry := [modelAlpha, modelBeta]

/-- Classification used by the C1 theorems. -/
def clsEx : Classification :=
  { tier := "moderate", confidence := 9/10, intent := "general" }

/-- Options for the C1 counterexample: provider `alpha` OPEN, `beta`
CLOSED, and a tenant allowlist matching no model. -/
def optsC1 : RouteOptions :=
  { rlScores := [("m-alpha", 9/10), ("m-beta", 1/10)], benchmarkMetrics := [],
    breakerStates := [("alpha", CBState.OPEN), ("beta", CBState.CLOSED)],
    tenantAllowedModels := some ["no-such-model"], confidenceThreshold := 1/2 }

/-- Options for the C1 witness: same breaker states, no allowlist. -/
def optsW : RouteOptions :=
  { rlScores := [("m-alpha", 9/10), ("m-beta", 1/10)], benchmarkMetrics := [],
    breakerStates := [("alpha", CBState.OPEN), ("beta", CBState.CLOSED)],
    tenantAllowedModels := none, confidenceThreshold := 1/2 }

/-- The scored `modelAlpha` under `optsC1`/balanced weights. -/
def scoredAlphaEx : ScoredCandidate :=
  { id := "m-alpha", provider := "alpha", totalScore := 241/250,
    costScore := 1, qualityScore := 9/10, latencyScore := 1, energyScore := 1,
    reliabilityScore := 99/100, rlScore := 9/10, modelData := modelAlpha }

/-- The scored `modelBeta` under `optsC1`/balanced weights. -/
def scoredBetaEx : ScoredCandidate :=
  { id := "m-beta", provider := "beta", totalScore := 11/100,
    costScore := 0, qualityScore := 1/10, latencyScore := 0, energyScore := 0,
    reliabilityScore := 1/2, rlScore := 1/10, modelData := modelBeta }

/-- The scored `modelBeta` under `optsW`/balanced weights (sole
candidate, so all min-max normalizations collapse to `0.5`). -/
def scoredBetaW : ScoredCandidate :=
  { id := "m-beta", provider := "beta", totalScore := 9/25,
    costScore := 1/2, qualityScore := 1/10, latencyScore := 1/2,
    energyScore := 1/2, reliabilityScore := 1/2, rlScore := 1/10,
    modelData := modelBeta }

/-- The routing result of `routeRequest modelsEx clsEx "balanced" optsW`. -/
def routerResultW : RoutingResult :=
  { selectedModel := modelBeta, selectedModelId := "m-beta", score := 9/25,
    allCandidates := [scoredBetaW], fallbackUsed := false }

/-! ## Theorems -/

lemma RLEngine.recordFeedbackPair_invariant {W d : ℚ} (hW : 0 < W) (hd : 0 ≤ d)
    {p : ℚ × ℚ} {r : ℚ}
    (h1 : 0 < p.1) (h2 : 0 < p.2) (_hsum : p.1 + p.2 ≤ W)
    (hr0 : 0 ≤ r) (hr1 : r ≤ 1) :
    0 < (RLEngine.recordFeedbackPair W d p r).1 ∧
    0 < (RLEngine.recordFeedbackPair W d p r).2 ∧
    (RLEngine.recordFeedbackPair W d p r).1 +
      (RLEngine.recordFeedbackPair W d p r).2 ≤ W := by
  unfold RLEngine.recordFeedbackPair
  set a := p.1 + r * d with ha
  set b := p.2 + (1 - r) * d with hb
  have hapos : 0 < a := by
    have : 0 ≤ r * d := mul_nonneg hr0 hd
    simp only [ha]; linarith
  have hbpos : 0 < b := by
    have : 0 ≤ (1 - r) * d := mul_nonneg (by linarith) hd
    simp only [hb]; linarith
  have htpos : 0 < a + b := by linarith
  by_cases hcase : a + b > W
  · simp only [hcase, if_true]
    have hscale : 0 < W / (a + b) := div_pos hW htpos
    refine ⟨mul_pos hapos hscale, mul_pos hbpos hscale, ?_⟩
    have : a * (W / (a + b)) + b * (W / (a + b)) = (a + b) * (W / (a + b)) := by
      ring
    rw [this]
    rw [mul_comm, div_mul_cancel₀ _ (ne_of_gt htpos)]
  · simp only [hcase, if_false]
    exact ⟨hapos, hbpos, by linarith⟩

/-- **C5.** For every sequence of `recordFeedback` calls with rewards in
`[0,1]`, starting from the prior `alpha = beta = 1`, every posterior keeps
`alpha > 0` and `beta > 0` and `alpha + beta ≤ 200` (the default
`maxWindowSize`; with exact arithmetic the bound is exact, hence in
particular within any `ε`), because the pair is proportionally rescaled
whenever the sum exceeds the window. -/
theorem bandit_posteriors_bounded (rewards : List ℚ)
    (hr : ∀ r ∈ rewards, 0 ≤ r ∧ r ≤ 1) :
    0 < (rewards.foldl (RLEngine.recordFeedbackPair 200 (1/10))
        RLEngine.initPair).1 ∧
    0 < (rewards.foldl (RLEngine.recordFeedbackPair 200 (1/10))
        RLEngine.initPair).2 ∧
    (rewards.foldl (RLEngine.recordFeedbackPair 200 (1/10))
        RLEngine.initPair).1 +
      (rewards.foldl (RLEngine.recordFeedbackPair 200 (1/10))
        RLEngine.initPair).2 ≤ 200 := by
  have main : ∀ (l : List ℚ) (p : ℚ × ℚ), (∀ r ∈ l, 0 ≤ r ∧ r ≤ 1) →
      0 < p.1 → 0 < p.2 → p.1 + p.2 ≤ 200 →
      0 < (l.foldl (RLEngine.recordFeedbackPair 200 (1/10)) p).1 ∧
      0 < (l.foldl (RLEngine.recordFeedbackPair 200 (1/10)) p).2 ∧
      (l.foldl (RLEngine.recordFeedbackPair 200 (1/10)) p).1 +
        (l.foldl (RLEngine.recordFeedbackPair 200 (1/10)) p).2 ≤ 200 := by
    intro l
    induction l with
    | nil => intro p _ h1 h2 h3; exact ⟨h1, h2, h3⟩
    | cons r rest ih =>
      intro p hmem h1 h2 h3
      have hr : 0 ≤ r ∧ r ≤ 1 := hmem r (List.mem_cons_self r rest)
      have step := RLEngine.recordFeedbackPair_invariant
        (W := 200) (d := 1/10) (by norm_num) (by norm_num)
        h1 h2 h3 hr.1 hr.2
      simpa using ih (RLEngine.recordFeedbackPair 200 (1/10) p r)
        (fun x hx => hmem x (List.mem_cons_of_mem r hx))
        step.1 step.2.1 step.2.2
  exact main rewards RLEngine.initPair hr (by norm_num [RLEngine.initPair])
    (by norm_num [RLEngine.initPair]) (by norm_num [RLEngine.initPair])

/-- Witness for C5: the invariant at the concrete reward sequence `[1, 0]`. -/
theorem bandit_posteriors_bounded_witness :
    0 < (([1, 0] : List ℚ).foldl (RLEngine.recordFeedbackPair 200 (1/10))
        RLEngine.initPair).1 ∧
    0 < (([1, 0] : List ℚ).foldl (RLEngine.recordFeedbackPair 200 (1/10))
        RLEngine.initPair).2 ∧
    (([1, 0] : List ℚ).foldl (RLEngine.recordFeedbackPair 200 (1/10))
        RLEngine.initPair).1 +
      (([1, 0] : List ℚ).foldl (RLEngine.recordFeedbackPair 200 (1/10))
        RLEngine.initPair).2 ≤ 200 :=
  bandit_posteriors_bounded [1, 0] (by decide)

lemma RLEngine.successTerm_le (s : Option Bool) : RLEngine.successTerm s ≤ 2/5 := by
  cases s with
  | none => norm_num [RLEngine.successTerm]
  | some b => cases b <;> norm_num [RLEngine.successTerm]

lemma RLEngine.qualityTerm_le (q : Option ℚ) : RLEngine.qualityTerm q ≤ 3/10 := by
  cases q with
  | none => norm_num [RLEngine.qualityTerm]
  | some qv =>
    simp only [RLEngine.qualityTerm, Option.elim]
    nlinarith [min_le_right (qv/10) (1:ℚ)]

lemma RLEngine.latencyTerm_le (l : Option ℚ) (h : ∀ lv, l = some lv → 0 ≤ lv) :
    RLEngine.latencyTerm l ≤ 1/5 := by
  cases l with
  | none => norm_num [RLEngine.latencyTerm]
  | some lv =>
    have h0 := h lv rfl
    simp only [RLEngine.latencyTerm, Option.elim]
    have hm : max 0 (1 - lv/30000) ≤ 1 := max_le (by norm_num) (by nlinarith)
    nlinarith

lemma RLEngine.costTerm_le (c : Option ℚ) (h : ∀ cv, c = some cv → 0 ≤ cv) :
    RLEngine.costTerm c ≤ 1/10 := by
  cases c with
  | none => norm_num [RLEngine.costTerm]
  | some cv =>
    have h0 := h cv rfl
    simp only [RLEngine.costTerm, Option.elim]
    have hm : max 0 (1 - cv/(1/100)) ≤ 1 := max_le (by norm_num) (by nlinarith)
    nlinarith

/-- **C8.** For every stored feedback record (with non-negative latency and
cost where present), the recompute reward is the sum of `success × 0.4`,
`min(quality/10, 1) × 0.3`, `max(0, 1 − latency/30000) × 0.2` and
`max(0, 1 − cost/0.01) × 0.1`, each term added only if that factor is
present in the record; when every factor is absent the reward is the
neutral `0.5`.  (The `min(·, 1)` cap in the source never lowers the sum,
since the four terms are bounded by 0.4, 0.3, 0.2 and 0.1.) -/
theorem recompute_reward_formula (fb : RLEngine.FeedbackRow)
    (hl : ∀ l, fb.latency_ms = some l → 0 ≤ l)
    (hc : ∀ c, fb.cost = some c → 0 ≤ c) :
    RLEngine.computeReward fb =
      if fb.success = none ∧ fb.quality_score = none ∧
          fb.latency_ms = none ∧ fb.cost = none then 1/2
      else RLEngine.successTerm fb.success + RLEngine.qualityTerm fb.quality_score +
        RLEngine.latencyTerm fb.latency_ms + RLEngine.costTerm fb.cost := by
  have hX : RLEngine.successTerm fb.success + RLEngine.qualityTerm fb.quality_score +
      RLEngine.latencyTerm fb.latency_ms + RLEngine.costTerm fb.cost ≤ 1 := by
    have h1 := RLEngine.successTerm_le fb.success
    have h2 := RLEngine.qualityTerm_le fb.quality_score
    have h3 := RLEngine.latencyTerm_le fb.latency_ms hl
    have h4 := RLEngine.costTerm_le fb.cost hc
    linarith
  by_cases hall : fb.success = none ∧ fb.quality_score = none ∧
      fb.latency_ms = none ∧ fb.cost = none
  · obtain ⟨h1, h2, h3, h4⟩ := hall
    simp [RLEngine.computeReward, h1, h2, h3, h4, RLEngine.factorCount]
  · have hf : 0 < RLEngine.factorCount fb.success +
        RLEngine.factorCount fb.quality_score +
        RLEngine.factorCount fb.latency_ms + RLEngine.factorCount fb.cost := by
      rcases Classical.not_and_iff_or_not_not.mp hall with h | h
      · rcases Option.ne_none_iff_exists'.mp h with ⟨v, hv⟩
        simp [RLEngine.factorCount, hv]
      · rcases Classical.not_and_iff_or_not_not.mp h with h' | h'
        · rcases Option.ne_none_iff_exists'.mp h' with ⟨v, hv⟩
          simp [RLEngine.factorCount, hv]
        · rcases Classical.not_and_iff_or_not_not.mp h' with h'' | h''
          · rcases Option.ne_none_iff_exists'.mp h'' with ⟨v, hv⟩
            simp [RLEngine.factorCount, hv]
          · rcases Option.ne_none_iff_exists'.mp h'' with ⟨v, hv⟩
            simp [RLEngine.factorCount, hv]
    simp only [RLEngine.computeReward]
    rw [if_pos hf, if_neg hall, min_eq_left hX]

/-- Witness for C8 at the concrete feedback row `fbEx` (success, quality 8,
latency 1000 ms, cost 0.001). -/
theorem recompute_reward_formula_witness :
    RLEngine.computeReward RLEngine.fbEx =
      if RLEngine.fbEx.success = none ∧ RLEngine.fbEx.quality_score = none ∧
          RLEngine.fbEx.latency_ms = none ∧ RLEngine.fbEx.cost = none then 1/2
      else RLEngine.successTerm RLEngine.fbEx.success +
        RLEngine.qualityTerm RLEngine.fbEx.quality_score +
        RLEngine.latencyTerm RLEngine.fbEx.latency_ms +
        RLEngine.costTerm RLEngine.fbEx.cost :=
  recompute_reward_formula RLEngine.fbEx
    (by intro l h; simp [RLEngine.fbEx] at h; subst h; norm_num)
    (by intro c h; simp [RLEngine.fbEx] at h; subst h; norm_num)

/-- **C10.** For an authenticated tenant (a non-empty `fra_`-prefixed key
that resolves to a tenant), the auth middleware returns the 429
`budget_exceeded` outcome exactly when `budget_limit_monthly` is non-null
and non-zero and `usage_this_month ≥ budget_limit_monthly`; in particular a
tenant whose `budget_limit_monthly` is `0` is treated like a tenant with no
limit: `isWithinBudget` is `true` for every usage and the request is never
rejected for budget. -/
theorem budget_zero_means_no_limit (auth : String → Option Tenant)
    (key : String) (t : Tenant)
    (hk : key ≠ "")
    (hsk : jsStartsWith key "sk-" = false)
    (hant : jsStartsWith key "ant-" = false)
    (hfra : jsStartsWith key "fra_" = true)
    (hauth : auth key = some t) :
    (authMiddleware auth (some key) = .budgetExceeded ↔
      ∃ limit, t.budget_limit_monthly = some limit ∧ limit ≠ 0 ∧
        limit ≤ t.usage_this_month.getD 0) ∧
    (t.budget_limit_monthly = some 0 →
      TenantManager.isWithinBudget (some t) = true ∧
      authMiddleware auth (some key) = .authenticated t) := by
  have hmid : authMiddleware auth (some key) =
      (if ¬ TenantManager.isWithinBudget (some t) then .budgetExceeded
       else .authenticated t) := by
    simp [authMiddleware, hk, hsk, hant, hfra, hauth]
  constructor
  · rw [hmid]
    constructor
    · intro hout
      by_cases hw : TenantManager.isWithinBudget (some t) = true
      · simp [hw] at hout
      · simp only [TenantManager.isWithinBudget] at hw
        cases hb : t.budget_limit_monthly with
        | none => rw [hb] at hw; simp at hw
        | some limit =>
          rw [hb] at hw
          by_cases h0 : limit = 0
          · simp [h0] at hw
          · refine ⟨limit, rfl, h0, ?_⟩
            simp only [h0, if_false] at hw
            by_contra hlt
            push_neg at hlt
            simp [hlt] at hw
    · rintro ⟨limit, hb, h0, hge⟩
      have hw : TenantManager.isWithinBudget (some t) = false := by
        simp only [TenantManager.isWithinBudget, hb]
        rw [if_neg h0]
        simp [not_lt.mpr hge]
      simp [hw]
  · intro hb
    have hw : TenantManager.isWithinBudget (some t) = true := by
      simp [TenantManager.isWithinBudget, hb]
    refine ⟨hw, ?_⟩
    rw [hmid]
    simp [hw]

/-- Witness for C10: key `"fra_k"` resolving to `tenantEx`
(budget 5, usage 7). -/
theorem budget_zero_means_no_limit_witness :
    (authMiddleware authStoreEx (some "fra_k") = .budgetExceeded ↔
      ∃ limit, tenantEx.budget_limit_monthly = some limit ∧ limit ≠ 0 ∧
        limit ≤ tenantEx.usage_this_month.getD 0) ∧
    (tenantEx.budget_limit_monthly = some 0 →
      TenantManager.isWithinBudget (some tenantEx) = true ∧
      authMiddleware authStoreEx (some "fra_k") = .authenticated tenantEx) :=
  budget_zero_means_no_limit authStoreEx "fra_k" tenantEx
    (by decide) (by decide) (by decide) (by decide)
    (by simp [authStoreEx])

/-- **C6.** The claim says the active-request counter is decremented exactly
once per admitted request, so that after completion it equals its value
before the request.  The code violates this: on a normal completion both
the `finish` and the `close` listeners fire and each decrements, because
the `decremented` guard installed in the `emit` wrapper is never consulted
by the listeners.  After `admitReq` followed by `finish` and `close` the
counter is `n - 1`, one below its pre-request value `n`. -/
theorem active_counter_double_decrement (n : ℤ) :
    (RateLimit.emitEvent
      (RateLimit.emitEvent
        (RateLimit.admitReq { activeRequests := n, decremented := false })
        "finish") "close").activeRequests = n - 1 := by
  simp [RateLimit.admitReq, RateLimit.emitEvent]

/-- **C2.** When `recordResult` is called on a breaker in the CLOSED state
with the default thresholds, the breaker transitions to OPEN exactly when
the pruned sliding window (old events dropped, the new event appended)
contains at least 5 events and at least one of
`error_rate ≥ 0.5`, `timeout_rate ≥ 0.3`, `p95 ≥ 30000 ms` holds;
otherwise it remains CLOSED.  On opening it records `opened_at = now` and a
`lastOpenReason` naming the first breached threshold in source order; when
it stays CLOSED both fields are untouched. -/
theorem breaker_opens_iff_threshold_breach
    (b : CircuitBreaker) (now : ℤ) (success : Bool) (lat : ℚ) (tout : Bool)
    (b' : CircuitBreaker) (pruned : List CBEvent)
    (hstate : b.state = .CLOSED)
    (herr : b.errorRateThreshold = 1/2) (hto : b.timeoutRateThreshold = 3/10)
    (hp95 : b.p95LatencyThreshold = 30000) (hmin : b.minSamples = 5)
    (hb' : b' = recordResult now b success lat tout)
    (hpruned : pruned = pruneEvents now b.windowMs
      (b.events ++ [(⟨now, success, lat, tout⟩ : CBEvent)])) :
    (b'.state = .OPEN ↔ 5 ≤ pruned.length ∧
      (windowErrorRate pruned ≥ 1/2 ∨ windowTimeoutRate pruned ≥ 3/10 ∨
       windowP95 pruned ≥ 30000)) ∧
    (b'.state = .OPEN →
      b'.openedAt = some now ∧
      b'.lastOpenReason = some
        (if windowErrorRate pruned ≥ 1/2 then .errorRate
         else if windowTimeoutRate pruned ≥ 3/10 then .timeoutRate
         else .p95Latency)) ∧
    (b'.state ≠ .OPEN → b'.state = .CLOSED ∧ b'.openedAt = b.openedAt ∧
      b'.lastOpenReason = b.lastOpenReason) := by
  obtain ⟨st, ert, trt, pt, ms, wm, bc, mc, cd, ev, cf, oa, lor⟩ := b
  simp only at hstate herr hto hp95 hmin hpruned
  subst hstate herr hto hp95 hmin
  have hb'2 : b' = evaluate now
      { state := .CLOSED, errorRateThreshold := 1/2, timeoutRateThreshold := 3/10,
        p95LatencyThreshold := 30000, minSamples := 5, windowMs := wm,
        baseCooldownMs := bc, maxCooldownMs := mc, cooldownMs := cd,
        events := ev ++ [⟨now, success, lat, tout⟩],
        consecutiveFailures := if success then 0 else cf + 1,
        openedAt := oa, lastOpenReason := lor } := by
    rw [hb']
    cases success <;> rfl
  rw [hb'2]
  show _ ∧ _ ∧ _
  simp only [evaluate]
  rw [← hpruned]
  by_cases h5 : pruned.length < 5
  · have hE : evaluateReason pruned 5 (1/2) (3/10) 30000 = none := by
      unfold evaluateReason
      rw [if_pos h5]
    rw [hE]
    refine ⟨?_, ?_, ?_⟩
    · constructor
      · intro h; exact absurd h (by simp)
      · rintro ⟨hlen, -⟩; omega
    · intro h; exact absurd h (by simp)
    · intro _; exact ⟨rfl, rfl, rfl⟩
  · by_cases he : windowErrorRate pruned ≥ 1/2
    · have hE : evaluateReason pruned 5 (1/2) (3/10) 30000 = some .errorRate := by
        unfold evaluateReason
        rw [if_neg h5, if_pos he]
      rw [hE]
      refine ⟨?_, fun _ => ⟨rfl, ?_⟩, fun h => absurd rfl h⟩
      · exact ⟨fun _ => ⟨by omega, Or.inl he⟩, fun _ => rfl⟩
      · rw [if_pos he]
    · by_cases ht : windowTimeoutRate pruned ≥ 3/10
      · have hE : evaluateReason pruned 5 (1/2) (3/10) 30000 =
            some .timeoutRate := by
          unfold evaluateReason
          rw [if_neg h5, if_neg he, if_pos ht]
        rw [hE]
        refine ⟨?_, fun _ => ⟨rfl, ?_⟩, fun h => absurd rfl h⟩
        · exact ⟨fun _ => ⟨by omega, Or.inr (Or.inl ht)⟩, fun _ => rfl⟩
        · rw [if_neg he, if_pos ht]
      · by_cases hp : windowP95 pruned ≥ 30000
        · have hE : evaluateReason pruned 5 (1/2) (3/10) 30000 =
              some .p95Latency := by
            unfold evaluateReason
            rw [if_neg h5, if_neg he, if_neg ht, if_pos hp]
          rw [hE]
          refine ⟨?_, fun _ => ⟨rfl, ?_⟩, fun h => absurd rfl h⟩
          · exact ⟨fun _ => ⟨by omega, Or.inr (Or.inr hp)⟩, fun _ => rfl⟩
          · rw [if_neg he, if_neg ht]
        · have hE : evaluateReason pruned 5 (1/2) (3/10) 30000 = none := by
            unfold evaluateReason
            rw [if_neg h5, if_neg he, if_neg ht, if_neg hp]
          rw [hE]
          refine ⟨?_, ?_, ?_⟩
          · constructor
            · intro h; exact absurd h (by simp)
            · rintro ⟨-, h | h | h⟩
              · exact absurd h he
              · exact absurd h ht
              · exact absurd h hp
          · intro h; exact absurd h (by simp)
          · intro _; exact ⟨rfl, rfl, rfl⟩

/-- Witness for C2: `breakerEx` (CLOSED, four recent failures in window)
receives a fifth failure at `now = 1004`. -/
theorem breaker_opens_iff_threshold_breach_witness :
    ((recordResult 1004 breakerEx false 100 false).state = .OPEN ↔
      5 ≤ (pruneEvents 1004 breakerEx.windowMs
        (breakerEx.events ++ [(⟨1004, false, 100, false⟩ : CBEvent)])).length ∧
      (windowErrorRate (pruneEvents 1004 breakerEx.windowMs
          (breakerEx.events ++ [(⟨1004, false, 100, false⟩ : CBEvent)])) ≥ 1/2 ∨
       windowTimeoutRate (pruneEvents 1004 breakerEx.windowMs
          (breakerEx.events ++ [(⟨1004, false, 100, false⟩ : CBEvent)])) ≥ 3/10 ∨
       windowP95 (pruneEvents 1004 breakerEx.windowMs
          (breakerEx.events ++ [(⟨1004, false, 100, false⟩ : CBEvent)])) ≥ 30000)) ∧
    ((recordResult 1004 breakerEx false 100 false).state = .OPEN →
      (recordResult 1004 breakerEx false 100 false).openedAt = some 1004 ∧
      (recordResult 1004 breakerEx false 100 false).lastOpenReason = some
        (if windowErrorRate (pruneEvents 1004 breakerEx.windowMs
            (breakerEx.events ++ [(⟨1004, false, 100, false⟩ : CBEvent)])) ≥ 1/2
         then .errorRate
         else if windowTimeoutRate (pruneEvents 1004 breakerEx.windowMs
            (breakerEx.events ++ [(⟨1004, false, 100, false⟩ : CBEvent)])) ≥ 3/10
         then .timeoutRate
         else .p95Latency)) ∧
    ((recordResult 1004 breakerEx false 100 false).state ≠ .OPEN →
      (recordResult 1004 breakerEx false 100 false).state = .CLOSED ∧
      (recordResult 1004 breakerEx false 100 false).openedAt = breakerEx.openedAt ∧
      (recordResult 1004 breakerEx false 100 false).lastOpenReason =
        breakerEx.lastOpenReason) :=
  breaker_opens_iff_threshold_breach breakerEx 1004 false 100 false
    (recordResult 1004 breakerEx false 100 false)
    (pruneEvents 1004 breakerEx.windowMs
      (breakerEx.events ++ [(⟨1004, false, 100, false⟩ : CBEvent)]))
    rfl rfl rfl rfl rfl rfl rfl

lemma jsGet_cons {α : Type} (k' : String) (v' : α) (rest : List (String × α))
    (k : String) :
    jsGet ((k', v') :: rest) k = if k' = k then some v' else jsGet rest k := by
  by_cases h : k' = k
  · simp [jsGet, List.find?_cons, h]
  · simp [jsGet, List.find?_cons, h]

lemma jsGet_jsSet_self {α : Type} (m : List (String × α)) (k : String) (v : α) :
    jsGet (jsSet m k v) k = some v := by
  induction m with
  | nil => simp [jsSet, jsGet_cons]
  | cons p rest ih =>
    obtain ⟨k', v'⟩ := p
    by_cases h : k' = k
    · simp [jsSet, h, jsGet_cons]
    · rw [jsSet, if_neg (by simpa using h), jsGet_cons, if_neg h]
      exact ih

lemma jsGet_filter {α : Type} (m : List (String × α)) (k : String) (v : α)
    (p : String × α → Bool)
    (hget : jsGet m k = some v) (hp : p (k, v) = true) :
    jsGet (m.filter p) k = some v := by
  induction m with
  | nil => simp [jsGet] at hget
  | cons q rest ih =>
    obtain ⟨k', v'⟩ := q
    rw [jsGet_cons] at hget
    by_cases h : k' = k
    · rw [if_pos h] at hget
      injection hget with hv
      subst hv
      subst h
      rw [List.filter_cons, if_pos hp, jsGet_cons, if_pos rfl]
    · rw [if_neg h] at hget
      rw [List.filter_cons]
      by_cases hq : p (k', v') = true
      · rw [if_pos hq, jsGet_cons, if_neg h]
        exact ih hget
      · rw [if_neg hq]
        exact ih hget

lemma jsGet_mem {α : Type} (m : List (String × α)) (k : String) (v : α)
    (hget : jsGet m k = some v) : (k, v) ∈ m := by
  induction m with
  | nil => simp [jsGet] at hget
  | cons q rest ih =>
    obtain ⟨k', v'⟩ := q
    rw [jsGet_cons] at hget
    by_cases h : k' = k
    · rw [if_pos h] at hget
      injection hget with hv
      subst hv
      subst h
      exact List.mem_cons_self _ _
    · rw [if_neg h] at hget
      exact List.mem_cons_of_mem _ (ih hget)

lemma mem_jsSet {α : Type} (m : List (String × α)) (k : String) (v : α)
    (q : String × α) (hm : q ∈ jsSet m k v) : q = (k, v) ∨ q ∈ m := by
  induction m with
  | nil => simpa [jsSet] using hm
  | cons p rest ih =>
    obtain ⟨k', v'⟩ := p
    by_cases h : k' = k
    · rw [jsSet, if_pos (by simpa using h)] at hm
      rcases List.mem_cons.mp hm with h1 | h1
      · exact Or.inl h1
      · exact Or.inr (List.mem_cons_of_mem _ h1)
    · rw [jsSet, if_neg (by simpa using h)] at hm
      rcases List.mem_cons.mp hm with h1 | h1
      · exact Or.inr (by subst h1; exact List.mem_cons_self _ _)
      · rcases ih h1 with h2 | h2
        · exact Or.inl h2
        · exact Or.inr (List.mem_cons_of_mem _ h2)

namespace SemanticCache

lemma evictLRUGo_ttlMs (n : ℕ) (c : SemanticCache) :
    (evictLRUGo n c).ttlMs = c.ttlMs := by
  induction n generalizing c with
  | zero => rfl
  | succ n ih =>
    rw [evictLRUGo]
    by_cases hsz : c.exactMatchMap.length ≥ c.maxSize
    · rw [if_pos hsz]
      match horder : c.accessOrder with
      | [] => rfl
      | oldest :: rest => exact (ih _).trans rfl
    · rw [if_neg hsz]

lemma lookup_exact_hit (S : SemanticCache) (now : ℤ) (h : String)
    (emb : Option (List ℝ)) (e : CacheEntry)
    (hget : jsGet S.exactMatchMap h = some e)
    (hfresh : now - e.timestamp < S.ttlMs) :
    (lookup now S h emb).1 =
      { hit := true, response := some e.response, model := some e.model,
        source := some "exact" } := by
  have hkeep : now - e.timestamp ≤ S.ttlMs := le_of_lt hfresh
  unfold lookup
  simp only [evictExpired]
  have hget2 : jsGet (S.exactMatchMap.filter
      (fun p => decide (now - p.2.timestamp ≤ S.ttlMs))) h = some e :=
    jsGet_filter _ _ _ _ hget (by simpa using hkeep)
  rw [hget2]
  simp only []
  rw [if_pos hfresh]

/-- **C9.** For every hash `h`, response `r`, model `m`, time `now` and
cache with `maxSize ≥ 1` and positive TTL: immediately after
`store(h, r, m)`, `lookup(h)` returns `hit = true` with response `r`,
model `m` and source `"exact"`. -/
theorem store_then_lookup_exact_hit (c : SemanticCache) (now : ℤ)
    (h r m : String)
    (_hmax : 1 ≤ c.maxSize) (httl : 0 < c.ttlMs) :
    (lookup now (store now c h r m none) h none).1 =
      { hit := true, response := some r, model := some m,
        source := some "exact" } := by
  have hget : jsGet (store now c h r m none).exactMatchMap h =
      some { response := r, model := m, timestamp := now, hitCount := 0 } := by
    show jsGet (jsSet (evictLRU c).exactMatchMap h _) h = _
    exact jsGet_jsSet_self _ _ _
  have httl2 : (store now c h r m none).ttlMs = c.ttlMs := by
    show (evictLRU c).ttlMs = c.ttlMs
    exact evictLRUGo_ttlMs _ _
  have := lookup_exact_hit (store now c h r m none) now h none
    { response := r, model := m, timestamp := now, hitCount := 0 }
    hget (by rw [httl2]; simpa using httl)
  simpa using this

/-- Witness for C9: storing into the empty default cache at time 0 and
looking the hash up again. -/
theorem store_then_lookup_exact_hit_witness :
    (lookup 0 (store 0 cacheEmptyEx "h" "r" "m" none) "h" none).1 =
      { hit := true, response := some "r", model := some "m",
        source := some "exact" } :=
  store_then_lookup_exact_hit cacheEmptyEx 0 "h" "r" "m"
    (by norm_num [cacheEmptyEx]) (by norm_num [cacheEmptyEx])

lemma lookupSemantic_spec (now : ℤ) (ce : SemanticCache)
    (emb : Option (List ℝ)) (res : LookupResult) (c' : SemanticCache)
    (hres : lookupSemantic now ce emb = (res, c'))
    (hages : ∀ e ∈ ce.embeddingEntries, now - e.timestamp ≤ ce.ttlMs) :
    (res.hit = true → res.source = some "semantic" ∧
      ∃ e ∈ ce.embeddingEntries, res.response = some e.response ∧
        res.model = some e.model ∧ now - e.timestamp ≤ ce.ttlMs) ∧
    c'.exactMatchMap = ce.exactMatchMap ∧
    (∀ x ∈ c'.embeddingEntries, now - x.timestamp ≤ ce.ttlMs) := by
  cases emb with
  | none =>
    simp only [lookupSemantic, missResult] at hres
    injection hres with h1 h2
    subst h1; subst h2
    exact ⟨fun hh => by simp at hh, rfl, hages⟩
  | some v =>
    simp only [lookupSemantic] at hres
    split at hres
    · split at hres
      · split at hres
        · rename_i bestSim i heq entry hget
          split at hres
          · injection hres with h1 h2
            subst h1; subst h2
            refine ⟨fun _ => ⟨rfl, entry, List.get?_mem hget, rfl, rfl,
              hages entry (List.get?_mem hget)⟩, rfl, ?_⟩
            intro x hx
            rcases List.mem_or_eq_of_mem_set hx with hx1 | hx1
            · exact hages x hx1
            · subst hx1
              exact hages entry (List.get?_mem hget)
          · simp only [missResult] at hres
            injection hres with h1 h2
            subst h1; subst h2
            exact ⟨fun hh => by simp at hh, rfl, hages⟩
        · simp only [missResult] at hres
          injection hres with h1 h2
          subst h1; subst h2
          exact ⟨fun hh => by simp at hh, rfl, hages⟩
      · simp only [missResult] at hres
        injection hres with h1 h2
        subst h1; subst h2
        exact ⟨fun hh => by simp at hh, rfl, hages⟩
    · simp only [missResult] at hres
      injection hres with h1 h2
      subst h1; subst h2
      exact ⟨fun hh => by simp at hh, rfl, hages⟩

/-- **C3 (amended).** For every lookup that returns `hit = true`: an exact
hit returns an entry of the cache with `now − timestamp < ttl` (strict),
while a semantic hit returns an embedding entry with
`now − timestamp ≤ ttl` (an entry exactly `ttl` old can still be returned
on the semantic path); entries strictly older than the TTL are never
returned and are lazily evicted during the lookup (every entry surviving
in the returned cache state satisfies `now − timestamp ≤ ttl`). -/
theorem hit_entry_age (c : SemanticCache) (now : ℤ) (h : String)
    (emb : Option (List ℝ)) (res : LookupResult) (c' : SemanticCache)
    (hres : lookup now c h emb = (res, c'))
    (hhit : res.hit = true) :
    ((res.source = some "exact" ∧ ∃ v : CacheEntry, (h, v) ∈ c.exactMatchMap ∧
        res.response = some v.response ∧ res.model = some v.model ∧
        now - v.timestamp < c.ttlMs) ∨
     (res.source = some "semantic" ∧ ∃ e ∈ c.embeddingEntries,
        res.response = some e.response ∧ res.model = some e.model ∧
        now - e.timestamp ≤ c.ttlMs)) ∧
    (∀ p ∈ c'.exactMatchMap, now - p.2.timestamp ≤ c.ttlMs) ∧
    (∀ x ∈ c'.embeddingEntries, now - x.timestamp ≤ c.ttlMs) := by
  simp only [lookup, evictExpired] at hres
  split at hres
  · rename_i e heq
    split at hres
    · rename_i hfresh
      injection hres with h1 h2
      subst h1; subst h2
      have hmem := jsGet_mem _ _ _ heq
      have hmem2 := List.mem_filter.mp hmem
      refine ⟨Or.inl ⟨rfl, e, hmem2.1, rfl, rfl, by simpa using hfresh⟩, ?_, ?_⟩
      · intro p hp
        rcases mem_jsSet _ _ _ _ hp with h1 | h1
        · subst h1
          simp only
          have : now - e.timestamp < c.ttlMs := by simpa using hfresh
          linarith
        · have := (List.mem_filter.mp h1).2
          simpa using this
      · intro x hx
        have := (List.mem_filter.mp hx).2
        simpa using this
    · have hages : ∀ x ∈ (c.embeddingEntries.filter
          (fun e => decide (now - e.timestamp ≤ c.ttlMs))),
          now - x.timestamp ≤ c.ttlMs := by
        intro x hx
        have := (List.mem_filter.mp hx).2
        simpa using this
      have spec := lookupSemantic_spec now _ emb res c' hres hages
      refine ⟨?_, ?_, ?_⟩
      · rcases spec.1 hhit with ⟨hsrc, e', hmem, hresp, hmod, hage⟩
        exact Or.inr ⟨hsrc, e', (List.mem_filter.mp hmem).1, hresp, hmod, hage⟩
      · intro p hp
        rw [spec.2.1] at hp
        have := (List.mem_filter.mp hp).2
        simpa using this
      · exact spec.2.2
  · have hages : ∀ x ∈ (c.embeddingEntries.filter
        (fun e => decide (now - e.timestamp ≤ c.ttlMs))),
        now - x.timestamp ≤ c.ttlMs := by
      intro x hx
      have := (List.mem_filter.mp hx).2
      simpa using this
    have spec := lookupSemantic_spec now _ emb res c' hres hages
    refine ⟨?_, ?_, ?_⟩
    · rcases spec.1 hhit with ⟨hsrc, e', hmem, hresp, hmod, hage⟩
      exact Or.inr ⟨hsrc, e', (List.mem_filter.mp hmem).1, hresp, hmod, hage⟩
    · intro p hp
      rw [spec.2.1] at hp
      have := (List.mem_filter.mp hp).2
      simpa using this
    · exact spec.2.2

/-- Witness for the amended C3 at a fresh exact hit on `cacheW`. -/
theorem hit_entry_age_witness :
    ((((lookup 10 cacheW "h1" none).1).source = some "exact" ∧
      ∃ v : CacheEntry, ("h1", v) ∈ cacheW.exactMatchMap ∧
        ((lookup 10 cacheW "h1" none).1).response = some v.response ∧
        ((lookup 10 cacheW "h1" none).1).model = some v.model ∧
        10 - v.timestamp < cacheW.ttlMs) ∨
     (((lookup 10 cacheW "h1" none).1).source = some "semantic" ∧
      ∃ e ∈ cacheW.embeddingEntries,
        ((lookup 10 cacheW "h1" none).1).response = some e.response ∧
        ((lookup 10 cacheW "h1" none).1).model = some e.model ∧
        10 - e.timestamp ≤ cacheW.ttlMs)) ∧
    (∀ p ∈ ((lookup 10 cacheW "h1" none).2).exactMatchMap,
      10 - p.2.timestamp ≤ cacheW.ttlMs) ∧
    (∀ x ∈ ((lookup 10 cacheW "h1" none).2).embeddingEntries,
      10 - x.timestamp ≤ cacheW.ttlMs) :=
  hit_entry_age cacheW 10 "h1" none
    (lookup 10 cacheW "h1" none).1 (lookup 10 cacheW "h1" none).2
    rfl (by rfl)

lemma cosine_one_one : cosineSimilarity [1] [1] = 1 := by
  simp [cosineSimilarity, Real.sqrt_one]

/-- **C3 (counterexample to the claim as stated).** On `cacheC3` (one
embedding entry stored at time 0, TTL 3600000), a lookup at
`now = 3600000` with a matching embedding returns `hit = true` via the
semantic path, yet the returned entry (response `"r"`, the only entry in
the cache) has `now − timestamp = ttl`, violating the claimed strict bound
`now − entry.timestamp < ttl`. -/
theorem ttl_boundary_counterexample :
    (lookup 3600000 cacheC3 "h2" (some [1])).1.hit = true ∧
    (lookup 3600000 cacheC3 "h2" (some [1])).1.response = some "r" ∧
    (∀ e ∈ cacheC3.embeddingEntries, e.response = "r" ∧
      ¬ (3600000 - e.timestamp < cacheC3.ttlMs)) := by
  have hbest : bestSemantic 3600000 3600000 [1]
      (cacheC3.embeddingEntries.filter
        (fun e => decide (3600000 - e.timestamp ≤ (3600000 : ℤ)))) =
      (1, some 0) := by
    simp [bestSemantic, cacheC3, embEx, cosine_one_one]
  have hlook : (lookup 3600000 cacheC3 "h2" (some [1])).1 =
      { hit := true, response := some "r", model := some "m",
        source := some "semantic" } := by
    simp only [lookup, evictExpired, lookupSemantic, shouldUseEmbedding,
      missResult, jsGet, cacheC3, embEx]
    norm_num
    rw [if_neg (show ¬ ("h1" = "h2") from by decide)]
    have hbest2 := hbest
    simp only [cacheC3, embEx] at hbest2
    norm_num at hbest2
    rw [hbest2]
    norm_num
  refine ⟨by rw [hlook], by rw [hlook], ?_⟩
  intro e he
  simp only [cacheC3] at he
  rcases List.mem_singleton.mp he with rfl
  simp [embEx, cacheC3]

end SemanticCache

lemma min_div_one_range {x : ℚ} (hx : 0 ≤ x) (d : ℚ) (hd : 0 < d) :
    0 ≤ min (x / d) 1 ∧ min (x / d) 1 ≤ 1 :=
  ⟨le_min (div_nonneg hx (le_of_lt hd)) zero_le_one, min_le_right _ _⟩

lemma featuresInRange_extract (m : Measurements) :
    featuresInRange (extractFeatures m) := by
  unfold featuresInRange extractFeatures
  simp only
  refine ⟨?_, ?_, ?_, ?_, ?_, ?_, ?_, ?_, ?_, ?_, ?_, ?_, ?_, ?_, ?_⟩
  · exact min_div_one_range (by positivity) _ (by norm_num)
  · exact min_div_one_range (by positivity) _ (by norm_num)
  · exact min_div_one_range (by positivity) _ (by norm_num)
  · refine min_div_one_range ?_ _ (by norm_num)
    split
    · positivity
    · exact le_refl 0
  · refine min_div_one_range ?_ _ (by norm_num)
    split
    · positivity
    · exact le_refl 0
  · constructor
    · split
      · positivity
      · exact le_refl 0
    · split
      · rename_i h
        rw [div_le_one (by exact_mod_cast h)]
        exact_mod_cast ((List.dedup_sublist _).length_le).trans
          (le_of_eq (List.length_map _ _))
      · norm_num
  · constructor
    · split
      · norm_num
      · split <;> norm_num
    · split
      · norm_num
      · split <;> norm_num
  · exact min_div_one_range (by positivity) _ (by norm_num)
  · exact min_div_one_range (by positivity) _ (by norm_num)
  · exact min_div_one_range (by positivity) _ (by norm_num)
  · exact min_div_one_range (by positivity) _ (by norm_num)
  · constructor
    · split <;> split <;> norm_num
    · split <;> split <;> norm_num
  · constructor
    · split <;> norm_num
    · split <;> norm_num
  · exact min_div_one_range (by positivity) _ (by norm_num)
  · constructor
    · split <;> norm_num
    · split <;> norm_num

lemma weightedScore_nonneg (f : Features) (h : featuresInRange f) :
    0 ≤ weightedScore f := by
  obtain ⟨h1, h2, h3, h4, h5, h6, h7, h8, h9, h10, h11, h12, h13, h14, h15⟩ := h
  unfold weightedScore
  have t1 : 0 ≤ f.charCount * (1/10) := mul_nonneg h1.1 (by norm_num)
  have t2 : 0 ≤ f.wordCount * (2/25) := mul_nonneg h2.1 (by norm_num)
  have t3 : 0 ≤ f.sentenceCount * (1/20) := mul_nonneg h3.1 (by norm_num)
  have t4 : 0 ≤ f.avgWordLength * (1/20) := mul_nonneg h4.1 (by norm_num)
  have t5 : 0 ≤ f.avgSentenceLength * (1/20) := mul_nonneg h5.1 (by norm_num)
  have t6 : 0 ≤ f.typeTokenRatio * (3/100) := mul_nonneg h6.1 (by norm_num)
  have t7 : 0 ≤ f.codeIndicator * (3/20) := mul_nonneg h7.1 (by norm_num)
  have t8 : 0 ≤ f.questionDepth * (2/25) := mul_nonneg h8.1 (by norm_num)
  have t9 : 0 ≤ f.structuralComplexity * (3/50) := mul_nonneg h9.1 (by norm_num)
  have t10 : 0 ≤ f.techDensity * (3/25) := mul_nonneg h10.1 (by norm_num)
  have t11 : 0 ≤ f.reasoningDensity * (1/10) := mul_nonneg h11.1 (by norm_num)
  have t12 : 0 ≤ f.specificity * (1/20) := mul_nonneg h12.1 (by norm_num)
  have t13 : 0 ≤ f.hasPriorReference * (1/50) := mul_nonneg h13.1 (by norm_num)
  have t14 : 0 ≤ f.numericalDensity * (3/100) := mul_nonneg h14.1 (by norm_num)
  have t15 : 0 ≤ f.hasLargeNumbers * (3/100) := mul_nonneg h15.1 (by norm_num)
  linarith

/-- **C4.** For every prompt (ranged over via the outputs of the string
primitives), the heuristic `classify` path returns a score in `[0,100]`
and a tier among trivial/simple/moderate/complex/expert; the score is the
fixed-weight sum of the 15 features (each in `[0,1]`) scaled to `[0,100]`
(`min(round(raw*100), 100)`), the tier follows the thresholds
`≤10 → trivial, ≤25 → simple, ≤50 → moderate, ≤75 → complex`, else
expert, and the confidence is `0.65`. -/
theorem classify_heuristic_contract (m : Measurements) :
    featuresInRange (extractFeatures m) ∧
    (0 ≤ (classifyHeuristic m).score ∧ (classifyHeuristic m).score ≤ 100) ∧
    (classifyHeuristic m).tier ∈
      ["trivial", "simple", "moderate", "complex", "expert"] ∧
    (classifyHeuristic m).confidence = 13/20 ∧
    (classifyHeuristic m).score =
      min (jsRound (weightedScore (extractFeatures m) * 100)) 100 ∧
    (classifyHeuristic m).tier =
      (if (classifyHeuristic m).score ≤ 10 then "trivial"
       else if (classifyHeuristic m).score ≤ 25 then "simple"
       else if (classifyHeuristic m).score ≤ 50 then "moderate"
       else if (classifyHeuristic m).score ≤ 75 then "complex"
       else "expert") := by
  have hfr := featuresInRange_extract m
  have hraw := weightedScore_nonneg _ hfr
  unfold classifyHeuristic heuristicClassify
  simp only
  have hs0 : (0 : ℤ) ≤ jsRound (weightedScore (extractFeatures m) * 100) := by
    unfold jsRound
    have : (0 : ℚ) ≤ weightedScore (extractFeatures m) * 100 + 1/2 := by linarith
    exact_mod_cast Int.le_floor.mpr (by exact_mod_cast this)
  have htier : ∀ sc : ℤ, TIERS.getD
      (if sc ≤ 10 then 0 else if sc ≤ 25 then 1 else if sc ≤ 50 then 2
       else if sc ≤ 75 then 3 else 4) "" =
      (if sc ≤ 10 then "trivial" else if sc ≤ 25 then "simple"
       else if sc ≤ 50 then "moderate" else if sc ≤ 75 then "complex"
       else "expert") := by
    intro sc
    by_cases c1 : sc ≤ 10
    · simp [c1, TIERS]
    · by_cases c2 : sc ≤ 25
      · simp [c1, c2, TIERS]
      · by_cases c3 : sc ≤ 50
        · simp [c1, c2, c3, TIERS]
        · by_cases c4 : sc ≤ 75
          · simp [c1, c2, c3, c4, TIERS]
          · simp [c1, c2, c3, c4, TIERS]
  refine ⟨hfr, ⟨le_min hs0 (by norm_num), min_le_right _ _⟩, ?_, trivial, trivial, ?_⟩
  · rw [htier]
    split
    · simp
    · split
      · simp
      · split
        · simp
        · split <;> simp
  · exact htier _

lemma runStream_append (s : StreamState) (l1 l2 : List StreamEvent) :
    runStream s (l1 ++ l2) = runStream (runStream s l1) l2 := by
  unfold runStream
  exact List.foldl_append _ _ _ _

lemma aborted_stable (evs : List StreamEvent) (s : StreamState)
    (h : s.aborted = true) :
    (runStream s evs).aborted = true ∧
    (runStream s evs).clientWrites = s.clientWrites := by
  induction evs generalizing s with
  | nil => exact ⟨h, rfl⟩
  | cons e rest ih =>
    show (runStream (streamStep s e) rest).aborted = true ∧
      (runStream (streamStep s e) rest).clientWrites = s.clientWrites
    have hstep : (streamStep s e).aborted = true ∧
        (streamStep s e).clientWrites = s.clientWrites := by
      cases e with
      | clientClose => exact ⟨rfl, rfl⟩
      | dataChunk c => simp [streamStep, h]
      | streamEnd => exact ⟨h, rfl⟩
      | streamError => simp [streamStep, h]
    obtain ⟨ha, hw⟩ := ih (streamStep s e) hstep.1
    exact ⟨ha, hw.trans hstep.2⟩

lemma destroyed_valid_stable (evs : List StreamEvent) (s : StreamState)
    (h : s.destroyed = true) (hv : validFrom s evs = true) :
    (runStream s evs).destroyed = true ∧
    (runStream s evs).logRows = s.logRows := by
  induction evs generalizing s with
  | nil => exact ⟨h, rfl⟩
  | cons e rest ih =>
    rw [validFrom] at hv
    simp only [Bool.and_eq_true, Bool.or_eq_true, Bool.not_eq_true] at hv
    obtain ⟨hv1, hv2⟩ := hv
    have he : e = .clientClose := by
      rcases hv1 with h1 | h1
      · rw [h] at h1; cases h1
      · exact beq_iff_eq.mp h1
    subst he
    show (runStream (streamStep s .clientClose) rest).destroyed = true ∧
      (runStream (streamStep s .clientClose) rest).logRows = s.logRows
    exact ih (streamStep s .clientClose) rfl hv2

lemma logRows_count (evs : List StreamEvent) (s : StreamState) :
    (runStream s evs).logRows = s.logRows + evs.count StreamEvent.streamEnd := by
  induction evs generalizing s with
  | nil => simp [runStream]
  | cons e rest ih =>
    show (runStream (streamStep s e) rest).logRows = _
    rw [ih]
    have hcnt : (e :: rest).count StreamEvent.streamEnd =
        rest.count StreamEvent.streamEnd +
          (if e = StreamEvent.streamEnd then 1 else 0) := by
      rw [List.count_cons]
      simp
    rw [hcnt]
    have hlog : (streamStep s e).logRows =
        s.logRows + (if e = StreamEvent.streamEnd then 1 else 0) := by
      cases e with
      | clientClose => simp [streamStep]
      | dataChunk c =>
        by_cases h : s.aborted = true <;> simp [streamStep, h]
      | streamEnd => simp [streamStep]
      | streamError => simp [streamStep]
    rw [hlog]
    ring

lemma validFrom_append (l1 : List StreamEvent) (s : StreamState)
    (l2 : List StreamEvent) (h : validFrom s (l1 ++ l2) = true) :
    validFrom (runStream s l1) l2 = true := by
  induction l1 generalizing s with
  | nil => exact h
  | cons e rest ih =>
    rw [List.cons_append, validFrom] at h
    simp only [Bool.and_eq_true] at h
    exact ih (streamStep s e) h.2

/-- **C7 (amended).** If the client disconnects during a streaming
response before the provider stream ends, the orchestrator destroys the
upstream provider stream and writes nothing further to the client — and
no log row is emitted for that request (log rows are only written by the
provider stream `end` handler, which a destroyed stream never fires). -/
theorem stream_client_disconnect (pre post : List StreamEvent)
    (hvalid : validFrom initStreamState
      (pre ++ StreamEvent.clientClose :: post) = true)
    (hnoend : StreamEvent.streamEnd ∉ pre) :
    (runStream initStreamState
      (pre ++ StreamEvent.clientClose :: post)).destroyed = true ∧
    (runStream initStreamState
      (pre ++ StreamEvent.clientClose :: post)).clientWrites =
      (runStream initStreamState pre).clientWrites ∧
    (runStream initStreamState
      (pre ++ StreamEvent.clientClose :: post)).logRows = 0 := by
  have hsplit : runStream initStreamState
      (pre ++ StreamEvent.clientClose :: post) =
      runStream (streamStep (runStream initStreamState pre)
        StreamEvent.clientClose) post := by
    rw [show pre ++ StreamEvent.clientClose :: post =
      (pre ++ [StreamEvent.clientClose]) ++ post by simp]
    rw [runStream_append, runStream_append]
    rfl
  have hvalid2 : validFrom (streamStep (runStream initStreamState pre)
      StreamEvent.clientClose) post = true := by
    have h2 := validFrom_append (pre ++ [StreamEvent.clientClose])
      initStreamState post (by simpa using hvalid)
    rw [runStream_append] at h2
    exact h2
  have hdes : (streamStep (runStream initStreamState pre)
      StreamEvent.clientClose).destroyed = true := rfl
  have hab : (streamStep (runStream initStreamState pre)
      StreamEvent.clientClose).aborted = true := rfl
  have hstable := destroyed_valid_stable post _ hdes hvalid2
  have hwrites := aborted_stable post _ hab
  refine ⟨by rw [hsplit]; exact hstable.1, ?_, ?_⟩
  · rw [hsplit, hwrites.2]
    rfl
  · rw [hsplit, hstable.2]
    show (streamStep (runStream initStreamState pre)
      StreamEvent.clientClose).logRows = 0
    have : (streamStep (runStream initStreamState pre)
        StreamEvent.clientClose).logRows =
        (runStream initStreamState pre).logRows := rfl
    rw [this, logRows_count]
    simp only [initStreamState]
    rw [List.count_eq_zero.mpr hnoend]

/-- **C7 (counterexample to the claim as stated).** A streaming request
that receives one chunk and then a client disconnect destroys the
upstream stream and emits zero log rows — not the "exactly one log row"
the claim requires. -/
theorem stream_disconnect_no_log_counterexample :
    (runStream initStreamState
      [StreamEvent.dataChunk "x", StreamEvent.clientClose]).destroyed = true ∧
    (runStream initStreamState
      [StreamEvent.dataChunk "x", StreamEvent.clientClose]).logRows = 0 ∧
    ¬ ((runStream initStreamState
      [StreamEvent.dataChunk "x", StreamEvent.clientClose]).logRows = 1) := by
  decide

/-- Witness for the amended C7 at the concrete trace
`[data "x", clientClose, clientClose]`. -/
theorem stream_client_disconnect_witness :
    (runStream initStreamState
      ([StreamEvent.dataChunk "x"] ++ StreamEvent.clientClose ::
        [StreamEvent.clientClose])).destroyed = true ∧
    (runStream initStreamState
      ([StreamEvent.dataChunk "x"] ++ StreamEvent.clientClose ::
        [StreamEvent.clientClose])).clientWrites =
      (runStream initStreamState [StreamEvent.dataChunk "x"]).clientWrites ∧
    (runStream initStreamState
      ([StreamEvent.dataChunk "x"] ++ StreamEvent.clientClose ::
        [StreamEvent.clientClose])).logRows = 0 :=
  stream_client_disconnect [StreamEvent.dataChunk "x"]
    [StreamEvent.clientClose] (by decide) (by decide)

lemma mem_insertDesc (a x : ScoredCandidate) (l : List ScoredCandidate)
    (h : a ∈ insertDesc x l) : a = x ∨ a ∈ l := by
  induction l with
  | nil => simpa [insertDesc] using h
  | cons y ys ih =>
    rw [insertDesc] at h
    split at h
    · rcases List.mem_cons.mp h with h1 | h1
      · exact Or.inr (by subst h1; exact List.mem_cons_self _ _)
      · rcases ih h1 with h2 | h2
        · exact Or.inl h2
        · exact Or.inr (List.mem_cons_of_mem _ h2)
    · rcases List.mem_cons.mp h with h1 | h1
      · exact Or.inl h1
      · exact Or.inr h1

lemma mem_sortDesc (a : ScoredCandidate) (l : List ScoredCandidate)
    (h : a ∈ sortDesc l) : a ∈ l := by
  have main : ∀ (l : List ScoredCandidate) (acc : List ScoredCandidate),
      a ∈ l.foldl (fun acc x => insertDesc x acc) acc → a ∈ acc ∨ a ∈ l := by
    intro l
    induction l with
    | nil => intro acc h; exact Or.inl h
    | cons x xs ih =>
      intro acc h
      rcases ih (insertDesc x acc) h with h1 | h1
      · rcases mem_insertDesc _ _ _ h1 with h2 | h2
        · exact Or.inr (by subst h2; exact List.mem_cons_self _ _)
        · exact Or.inl h2
      · exact Or.inr (List.mem_cons_of_mem _ h1)
  rcases main l [] h with h1 | h1
  · simp at h1
  · exact h1

lemma mem_filterQuality (l : List ModelEntry) (q : ℚ) (m : ModelEntry)
    (h : m ∈ filterQuality l q) : m ∈ l :=
  (List.mem_filter.mp h).1

lemma mem_routerCandidates (models : List ModelEntry) (cls : Classification)
    (options : RouteOptions) (m : ModelEntry)
    (hm : m ∈ routerCandidates models cls options) :
    breakerStatus options.breakerStates m ≠ some CBState.OPEN := by
  unfold routerCandidates at hm
  simp only at hm
  repeat' split at hm
  all_goals
    repeat replace hm := mem_filterQuality _ _ _ hm
  all_goals
    (have hpred := (List.mem_filter.mp hm).2
     intro hopen
     rw [hopen] at hpred
     simp at hpred)

/-- **C1 (amended).** For every call to `routeRequest`: when the ultimate
fallback is not used, the selected model is not excluded by the breaker
filter — its breaker lookup (`breakerStates[id] || breakerStates[provider]`)
is not OPEN, so in particular its provider is not in the OPEN-circuit set
when the states are keyed by provider; and the ultimate fallback (with its
warning) is used exactly when the allowlist/breaker/quality pipeline
leaves no candidate — not only when all providers are OPEN. -/
theorem router_select_not_open (models : List ModelEntry)
    (cls : Classification) (strategy : String) (options : RouteOptions)
    (r : RoutingResult)
    (hz : routeRequest models cls strategy options = some r) :
    (r.fallbackUsed = false →
      breakerStatus options.breakerStates r.selectedModel ≠
        some CBState.OPEN) ∧
    (r.fallbackUsed = true ↔ routerCandidates models cls options = []) := by
  unfold routeRequest at hz
  simp only at hz
  split at hz
  · exact absurd hz (by simp)
  · rename_i best rest heq
    injection hz with hz
    subst hz
    simp only
    constructor
    · intro hfb
      have hne : (routerCandidates models cls options).isEmpty = false := hfb
      rw [hne] at heq
      simp only [Bool.false_eq_true, if_false] at heq
      have hmem : best ∈ scoredList (STRATEGY_WEIGHTS strategy) cls options
          (routerCandidates models cls options) := by
        have hin : best ∈ sortDesc (scoredList (STRATEGY_WEIGHTS strategy)
            cls options (routerCandidates models cls options)) := by
          rw [heq]
          exact List.mem_cons_self _ _
        exact mem_sortDesc _ _ hin
      unfold scoredList at hmem
      simp only at hmem
      rcases List.mem_map.mp hmem with ⟨m, hmcand, hsc⟩
      have hprov : best.modelData = m := by
        rw [← hsc]
        rfl
      rw [hprov]
      exact mem_routerCandidates models cls options m hmcand
    · exact List.isEmpty_iff

lemma routerCandidates_C1 : routerCandidates modelsEx clsEx optsC1 = [] := by
  simp [routerCandidates, filterAllowed, filterBreakers, filterQuality,
    breakerStatus, jsGet, TIER_MIN_QUALITY, List.filter_cons, List.filter_nil,
    List.find?_cons, modelsEx, modelAlpha, modelBeta, clsEx, optsC1]

lemma routerCandidates_W :
    routerCandidates modelsEx clsEx optsW = [modelBeta] := by
  simp [routerCandidates, filterAllowed, filterBreakers, filterQuality,
    breakerStatus, jsGet, TIER_MIN_QUALITY, List.filter_cons, List.filter_nil,
    List.find?_cons, modelsEx, modelAlpha, modelBeta, clsEx, optsW]
  norm_num [modelBeta]

lemma scoredList_C1 :
    scoredList (STRATEGY_WEIGHTS "balanced") clsEx optsC1 modelsEx =
      [scoredAlphaEx, scoredBetaEx] := by
  simp [scoredList, scoreCandidate, STRATEGY_WEIGHTS, qualityMatchScore,
    intentStrengthMap, invertNormalize, normalizeMinMax, blendWithBaseline,
    round3, jsRound, listMin, listMax, jsGet, modelsEx, modelAlpha,
    modelBeta, clsEx, optsC1, scoredAlphaEx, scoredBetaEx]
  norm_num

lemma scoredList_W :
    scoredList (STRATEGY_WEIGHTS "balanced") clsEx optsW [modelBeta] =
      [scoredBetaW] := by
  simp [scoredList, scoreCandidate, STRATEGY_WEIGHTS, qualityMatchScore,
    intentStrengthMap, invertNormalize, normalizeMinMax, blendWithBaseline,
    round3, jsRound, listMin, listMax, jsGet, modelBeta, clsEx, optsW,
    scoredBetaW]
  norm_num

/-- **C1 (counterexample to the claim as stated).** With a tenant
allowlist matching no model, provider `alpha` OPEN and provider `beta`
CLOSED, `routeRequest` falls back to the full catalog and selects the
`alpha` model: the selected provider is in the OPEN-circuit set although
not all providers are OPEN. -/
theorem router_open_provider_counterexample :
    (routeRequest modelsEx clsEx "balanced" optsC1).map
      (fun r => (r.selectedModel.provider, r.fallbackUsed)) =
      some ("alpha", true) ∧
    jsGet optsC1.breakerStates "alpha" = some CBState.OPEN ∧
    jsGet optsC1.breakerStates "beta" = some CBState.CLOSED := by
  refine ⟨?_, by simp [jsGet, optsC1], by simp [jsGet, optsC1]⟩
  have hsort : sortDesc [scoredAlphaEx, scoredBetaEx] =
      [scoredAlphaEx, scoredBetaEx] := by
    norm_num [sortDesc, insertDesc, scoredAlphaEx, scoredBetaEx]
  simp only [routeRequest, routerCandidates_C1, List.isEmpty_nil, if_pos,
    scoredList_C1, hsort]
  simp [scoredAlphaEx, modelAlpha]

/-- Witness for the amended C1: under `optsW` the fallback is unused and
the selected model's breaker lookup is not OPEN. -/
theorem router_select_not_open_witness :
    (routerResultW.fallbackUsed = false →
      breakerStatus optsW.breakerStates routerResultW.selectedModel ≠
        some CBState.OPEN) ∧
    (routerResultW.fallbackUsed = true ↔
      routerCandidates modelsEx clsEx optsW = []) := by
  have hz : routeRequest modelsEx clsEx "balanced" optsW =
      some routerResultW := by
    simp only [routeRequest, routerCandidates_W]
    norm_num [scoredList_W, routerResultW, scoredBetaW]
    simp [sortDesc, insertDesc]
  exact router_select_not_open modelsEx clsEx "balanced" optsW
    routerResultW hz
